import Mathlib

/-!
Verification development for the cylmesh repository.

Part 1 models `_extract_mesh_statistics` from `src/cylmesh/mesh_generator.py`
as a pure function over the artifact text (a list of characters).  The Python
function uses two regular-expression searches; those are embedded here as
explicit string-scanning functions with the exact leftmost/greedy/lazy
semantics of the patterns used in the source
(`\$PhysicalNames\s*\n(.*?)\$EndPhysicalNames` with DOTALL, and
`\$Nodes\s*\n(.*?)\n`, `\$Elements\s*\n(.*?)\n` without DOTALL).
Python `int()` is modelled on optionally signed decimal numerals with
surrounding whitespace (the underscore digit-grouping feature of Python
is not modelled; no input in this development uses it).
The `try/except Exception: pass` of the source is modelled by threading an
explicit exception flag: a failing `int()` aborts the remaining sections and
the statistics accumulated so far are returned.
-/

abbrev Chars := List Char

/-- The whitespace characters of Python's `str.strip`/`str.split` and of
regex `\s`, restricted to ASCII. -/
def isSpace (c : Char) : Bool :=
  c = ' ' || c = '\t' || c = '\n' || c = '\r' || c = '\x0b' || c = '\x0c'

/-- Python `s.strip()`: remove leading and trailing whitespace. -/
def pyStrip (s : Chars) : Chars :=
  ((s.dropWhile isSpace).reverse.dropWhile isSpace).reverse

/-- Python `s.strip('"')`: remove leading and trailing double quotes. -/
def pyStripQuotes (s : Chars) : Chars :=
  ((s.dropWhile (fun c => c = '"')).reverse.dropWhile (fun c => c = '"')).reverse

/-- Helper for Python `s.split()` (split on whitespace runs, no empty pieces). -/
def splitWsAux : Chars → Chars → List Chars
  | [], acc => if acc.isEmpty then [] else [acc.reverse]
  | c :: cs, acc =>
    if isSpace c then
      if acc.isEmpty then splitWsAux cs [] else acc.reverse :: splitWsAux cs []
    else splitWsAux cs (c :: acc)

/-- Python `s.split()`. -/
def pySplitWs (s : Chars) : List Chars := splitWsAux s []

/-- Helper for Python `s.split('\n')` (keeps empty pieces). -/
def splitNlAux : Chars → Chars → List Chars
  | [], acc => [acc.reverse]
  | c :: cs, acc =>
    if c = '\n' then acc.reverse :: splitNlAux cs [] else splitNlAux cs (c :: acc)

/-- Python `s.split('\n')`. -/
def pySplitNl (s : Chars) : List Chars := splitNlAux s []

/-- Python `s.isdigit()` (ASCII digits). -/
def pyIsDigit (s : Chars) : Bool := !s.isEmpty && s.all Char.isDigit

/-- Decimal value of a digit string. -/
def digitsToNat (s : Chars) : Nat :=
  s.foldl (fun a c => a * 10 + (c.toNat - '0'.toNat)) 0

/-- Python `int(s)`: optionally signed decimal numeral with surrounding
whitespace allowed; `none` models a raised `ValueError`. -/
def pyInt (s : Chars) : Option Int :=
  if pyStrip s = [] then none
  else if (pyStrip s).headD ' ' = '-' then
    if pyIsDigit (pyStrip s).tail then some (-(digitsToNat (pyStrip s).tail : Int))
    else none
  else if (pyStrip s).headD ' ' = '+' then
    if pyIsDigit (pyStrip s).tail then some ((digitsToNat (pyStrip s).tail : Int))
    else none
  else if pyIsDigit (pyStrip s) then some ((digitsToNat (pyStrip s) : Int))
  else none

/-- Does `p` occur as a prefix of `s`? -/
def startsWith : Chars → Chars → Bool
  | [], _ => true
  | _ :: _, [] => false
  | p :: ps, c :: cs => if p = c then startsWith ps cs else false

/-- Index of the leftmost occurrence of `p` as a substring of `s`. -/
def findSub (p : Chars) : Chars → Option Nat
  | [] => if p.isEmpty then some 0 else none
  | c :: cs => if startsWith p (c :: cs) then some 0 else (findSub p cs).map (· + 1)

/-- Substring occurrence test. -/
def containsSub (s p : Chars) : Bool := (findSub p s).isSome

def physTail : Chars := ['P','h','y','s','i','c','a','l','N','a','m','e','s']

/-- The literal `$PhysicalNames` of the source's first regex. -/
def physMarker : Chars := '$' :: physTail

def endPhysTail : Chars :=
  ['E','n','d','P','h','y','s','i','c','a','l','N','a','m','e','s']

/-- The literal `$EndPhysicalNames` of the source's first regex. -/
def endPhysMarker : Chars := '$' :: endPhysTail

def nodesTail : Chars := ['N','o','d','e','s']

/-- The literal `$Nodes` of the source's second regex. -/
def nodesMarker : Chars := '$' :: nodesTail

def elemsTail : Chars := ['E','l','e','m','e','n','t','s']

/-- The literal `$Elements` of the source's third regex. -/
def elemsMarker : Chars := '$' :: elemsTail

/-- Position just after the last newline of a whitespace run: where the
greedy backtracking of `\s*\n` ends. -/
def afterLastNl (run : Chars) : Nat :=
  run.length - (run.reverse.takeWhile (fun c => !(c = '\n'))).length

/-- One match attempt of `\$PhysicalNames\s*\n(.*?)\$EndPhysicalNames`
(DOTALL) at the current position; returns group 1 on success. -/
def physAt (cs : Chars) : Option Chars :=
  if startsWith physMarker cs then
    let rest := cs.drop physMarker.length
    let run := rest.takeWhile isSpace
    if run.any (fun c => c = '\n') then
      let tailc := rest.drop (afterLastNl run)
      match findSub endPhysMarker tailc with
      | some q => some (tailc.take q)
      | none => none
    else none
  else none

/-- `re.search` for the `PhysicalNames` pattern: leftmost match attempt that
succeeds, scanning one position at a time. -/
def searchPhys : Chars → Option Chars
  | [] => none
  | c :: cs =>
    match physAt (c :: cs) with
    | some g => some g
    | none => searchPhys cs

/-- Newline positions inside a whitespace run, in the greedy (descending)
order that `\s*\n` backtracks through them. -/
def nlPositionsDesc (run : Chars) : List Nat :=
  ((List.range run.length).filter (fun i => run.getD i ' ' = '\n')).reverse

/-- Try the backtracking candidates of `\s*\n` in order; for each end
position, `(.*?)\n` needs a further newline and group 1 is the text up to
it. -/
def tryCands (rest : Chars) : List Nat → Option Chars
  | [] => none
  | p :: ps =>
    let t := rest.drop (p + 1)
    if t.any (fun c => c = '\n') then some (t.takeWhile (fun c => !(c = '\n')))
    else tryCands rest ps

/-- One match attempt of `\$<marker>\s*\n(.*?)\n` (no DOTALL) at the current
position; returns group 1 on success. -/
def lineAt (marker cs : Chars) : Option Chars :=
  if startsWith marker cs then
    let rest := cs.drop marker.length
    let run := rest.takeWhile isSpace
    tryCands rest (nlPositionsDesc run)
  else none

/-- `re.search` for the `Nodes`/`Elements` header pattern. -/
def searchLine (marker : Chars) : Chars → Option Chars
  | [] => none
  | c :: cs =>
    match lineAt marker (c :: cs) with
    | some g => some g
    | none => searchLine marker cs

/-- A physical-group value: `{'dimension': ..., 'tag': ...}`. -/
structure PhysEntry where
  dimension : Int
  tag : Int
deriving DecidableEq, Repr

/-- The statistics dictionary built by `_extract_mesh_statistics`: the
physical-group dict is an insertion-ordered association list. -/
structure MeshStatistics where
  physical_groups : List (Chars × PhysEntry)
  num_vertices : Int
  num_elements : Int
deriving DecidableEq, Repr

/-- Python dict assignment `d[k] = v`: overwrite in place or append. -/
def updateAssoc (m : List (Chars × PhysEntry)) (k : Chars) (v : PhysEntry) :
    List (Chars × PhysEntry) :=
  if m.any (fun p => p.1 = k) then
    m.map (fun p => if p.1 = k then (k, v) else p)
  else m ++ [(k, v)]

/-- One iteration of the record loop; `none` models a `ValueError` raised by
`int()` on a non-numeric dimension or tag field. -/
def processRecord (g : List (Chars × PhysEntry)) (line : Chars) :
    Option (List (Chars × PhysEntry)) :=
  if 3 ≤ (pySplitWs line).length then
    match pyInt ((pySplitWs line).getD 0 []), pyInt ((pySplitWs line).getD 1 []) with
    | some d, some t =>
      some (updateAssoc g (pyStripQuotes ((pySplitWs line).getD 2 [])) ⟨d, t⟩)
    | none, _ => none
    | some _, none => none
  else some g

/-- The record loop `for i in range(1, min(num_groups + 1, len(lines)))`;
the Bool is the exception flag (the loop stops at the first failure and the
groups populated so far are kept). -/
def physLoop : List Chars → List (Chars × PhysEntry) →
    List (Chars × PhysEntry) × Bool
  | [], g => (g, false)
  | l :: ls, g =>
    if (processRecord g l).isSome then physLoop ls ((processRecord g l).getD g)
    else (g, true)

/-- Processing of the matched `PhysicalNames` group: count line check, then
the record loop. -/
def physStage (grp : Chars) (g0 : List (Chars × PhysEntry)) :
    List (Chars × PhysEntry) × Bool :=
  match pySplitNl (pyStrip grp) with
  | [] => (g0, false)
  | l0 :: rest =>
    if pyIsDigit l0 then physLoop (rest.take (digitsToNat l0)) g0
    else (g0, false)

/-- The `PhysicalNames` stage of `_extract_mesh_statistics`. -/
def runPhysG (content : Chars) (g0 : List (Chars × PhysEntry)) :
    List (Chars × PhysEntry) × Bool :=
  match searchPhys content with
  | none => (g0, false)
  | some grp => physStage grp g0

/-- Shared header handling of the `Nodes`/`Elements` stages:
`group(1).strip().split()`, 4th field through `int()`. -/
def headerCount (g : Chars) : Option Int × Bool :=
  if 4 ≤ (pySplitWs (pyStrip g)).length then
    match pyInt ((pySplitWs (pyStrip g)).getD 3 []) with
    | some v => (some v, false)
    | none => (none, true)
  else (none, false)

/-- A `Nodes`/`Elements` stage of `_extract_mesh_statistics`. -/
def runCount (marker content : Chars) : Option Int × Bool :=
  match searchLine marker content with
  | none => (none, false)
  | some g => headerCount g

/-- Applying the `Nodes` stage's parsed count to the statistics. -/
def stAfterNodes (st1 : MeshStatistics) (rn : Option Int × Bool) : MeshStatistics :=
  match rn.1 with
  | some v => { st1 with num_vertices := v }
  | none => st1

/-- Applying the `Elements` stage's parsed count to the statistics. -/
def stAfterElems (st2 : MeshStatistics) (re2 : Option Int × Bool) : MeshStatistics :=
  match re2.1 with
  | some w => { st2 with num_elements := w }
  | none => st2

/-- The embedding of `_extract_mesh_statistics` on the artifact text.  The
top-level `except Exception: pass` of the source returns the statistics
accumulated at the point of failure. -/
def extractMeshStatistics (content : Chars) : MeshStatistics :=
  if (runPhysG content []).2 then ⟨(runPhysG content []).1, 0, 0⟩
  else if (runCount nodesMarker content).2 then
    stAfterNodes ⟨(runPhysG content []).1, 0, 0⟩ (runCount nodesMarker content)
  else
    stAfterElems
      (stAfterNodes ⟨(runPhysG content []).1, 0, 0⟩ (runCount nodesMarker content))
      (runCount elemsMarker content)

/-- Did the `PhysicalNames` stage raise (and absorb) an exception? -/
def physRaised (content : Chars) : Bool := (runPhysG content []).2

/-!
Part 2 models the input-validation phase of `create_mesh`
(`src/cylmesh/mesh_generator.py`) together with the validators of
`src/cylmesh/utils.py`, and the fluent `MeshBuilder` of
`src/cylmesh/builder.py`.  Numeric parameters are modelled as rationals.
A raised `ValidationError` message is an `Except.error`; `create_mesh`
catches it and returns its failure dictionary, modelled by `CreateOutcome`.
-/

deriving instance DecidableEq for Except

/-- Message of `validate_matching_lengths` in `utils.py`. -/
def mismatchMsg (n1 : Nat) (name1 : String) (n2 : Nat) (name2 : String) : String :=
  "Number of " ++ name1 ++ " (" ++ Nat.repr n1 ++ ") must match number of " ++
    name2 ++ " (" ++ Nat.repr n2 ++ ")"

/-- The validation phase of `create_mesh`, in source order:
`validate_positive_float(ml)`, `validate_positive_float(radius)`,
`validate_positive_list(layers)`, then the length checks; returns the
effective subdivisions on success. -/
def validateCreate (ml radius : ℚ) (layers : List ℚ) (subdivisions : Option (List Nat))
    (layer_names : Option (List (Option String))) : Except String (List Nat) :=
  if ml ≤ 0 then Except.error ("mesh length must be positive")
  else if radius ≤ 0 then Except.error ("radius must be positive")
  else if layers.any (fun v => v ≤ 0) then
    Except.error ("All layer thicknesses must be positive")
  else
    match subdivisions with
    | none =>
      match layer_names with
      | none => Except.ok (List.replicate layers.length 1)
      | some ns =>
        if ns.length ≠ layers.length then
          Except.error (mismatchMsg ns.length "layer names" layers.length "layers")
        else Except.ok (List.replicate layers.length 1)
    | some subs =>
      if subs.length ≠ layers.length then
        Except.error (mismatchMsg subs.length "subdivisions" layers.length "layers")
      else
        match layer_names with
        | none => Except.ok subs
        | some ns =>
          if ns.length ≠ layers.length then
            Except.error (mismatchMsg ns.length "layer names" layers.length "layers")
          else Except.ok subs

/-- The fields of the failure dictionary of `create_mesh` relevant to the
claims: `success`, `geo_file`, `error`. -/
structure CreateOutcome where
  success : Bool
  geo_file : Option String
  error : Option String
deriving DecidableEq, Repr

/-- `create_mesh` up to the end of its validation phase: `some outcome` is
the failure dictionary returned when validation raised; `none` means
validation passed and control reaches the geometry-generation phase (whose
collaborators are external to this model). -/
def createMeshValidated (ml radius : ℚ) (layers : List ℚ)
    (subdivisions : Option (List Nat)) (layer_names : Option (List (Option String))) :
    Option CreateOutcome :=
  match validateCreate ml radius layers subdivisions layer_names with
  | Except.error e => some ⟨false, none, some e⟩
  | Except.ok _ => none

/-- The mutable state of `MeshBuilder` in `builder.py`. -/
structure BuilderState where
  radius : Option ℚ
  ml : Option ℚ
  layers : List ℚ
  subdivisions : List Nat
  layer_names : List (Option String)
deriving DecidableEq, Repr

/-- `MeshBuilder()`. -/
def initBuilder : BuilderState := ⟨none, none, [], [], []⟩

/-- `.cylinder(radius)`. -/
def setCylinder (st : BuilderState) (r : ℚ) : BuilderState :=
  { st with radius := some r }

/-- `.mesh_size(ml)`. -/
def setMeshSize (st : BuilderState) (m : ℚ) : BuilderState :=
  { st with ml := some m }

/-- `.add_layer(name, thickness=..., subdivisions=...)` with a (non-empty)
name: the names list is first padded with `None` up to one below the new
layer count, then the name is appended. -/
def addNamed (st : BuilderState) (name : String) (t : ℚ) (s : Nat) : BuilderState :=
  ⟨st.radius, st.ml, st.layers ++ [t], st.subdivisions ++ [s],
    (st.layer_names ++ List.replicate (st.layers.length - st.layer_names.length) none)
      ++ [some name]⟩

/-- `.add_layer(thickness, subdivisions=...)` without a name: the names list
is left untouched. -/
def addUnnamed (st : BuilderState) (t : ℚ) (s : Nat) : BuilderState :=
  ⟨st.radius, st.ml, st.layers ++ [t], st.subdivisions ++ [s], st.layer_names⟩

/-- One `add_layer` call. -/
inductive AddOp where
  | named (name : String) (t : ℚ) (s : Nat)
  | unnamed (t : ℚ) (s : Nat)
deriving DecidableEq, Repr

def applyOp (st : BuilderState) : AddOp → BuilderState
  | AddOp.named n t s => addNamed st n t s
  | AddOp.unnamed t s => addUnnamed st t s

def applyOps (st : BuilderState) (ops : List AddOp) : BuilderState :=
  ops.foldl applyOp st

/-- Python truthiness of `any(self._layer_names)`. -/
def anyNames (ns : List (Option String)) : Bool := ns.any (fun o => o.isSome)

/-- `MeshBuilder.build()`: the `ValueError`s it raises itself are
`Except.error`; on `Except.ok` it calls `create_mesh`, modelled up to the
end of validation (see `createMeshValidated`). -/
def builderBuild (st : BuilderState) : Except String (Option CreateOutcome) :=
  if st.radius.isNone then
    Except.error ("Cylinder radius not set. Use .cylinder(radius)")
  else if st.ml.isNone then
    Except.error ("Mesh size not set. Use .mesh_size(ml)")
  else if st.layers.isEmpty then
    Except.error ("No layers defined. Use .add_layer()")
  else
    Except.ok (createMeshValidated (st.ml.getD 0) (st.radius.getD 0) st.layers
      (some st.subdivisions)
      (if anyNames st.layer_names then some st.layer_names else none))

/-!
Part 3: the geometry-script builder.  The module `cylmesh/geometry.py`
(`GeometryGenerator.generate_geo_script`) is imported by `mesh_generator.py`
and `app.py` but its source is not part of the repository snapshot; the
builder is therefore modelled from the specification.
-/

/-- Modelled from the spec: a layer of the stack (`Layer` of spec section 3);
the missing source is `cylmesh/geometry.py`. -/
structure SpecLayer where
  thickness : ℚ
  subCount : Nat
  name : Option String
deriving DecidableEq, Repr

/-- Modelled from the spec: the validated `LayerStack` data model of spec
section 3; the missing source is `cylmesh/geometry.py`. -/
structure LayerStack where
  ml : ℚ
  radius : ℚ
  layersSeq : List SpecLayer
deriving DecidableEq, Repr

/-- Modelled from the spec: the stack invariants of spec section 3. -/
def validStack (s : LayerStack) : Prop :=
  s.layersSeq ≠ [] ∧ 0 < s.radius ∧ 0 < s.ml ∧
    (∀ l ∈ s.layersSeq, 0 < l.thickness ∧ 1 ≤ l.subCount) ∧
    (s.layersSeq.filterMap (fun l => l.name)).Nodup

instance (s : LayerStack) : Decidable (validStack s) := by
  unfold validStack; infer_instance

/-- Modelled from the spec: the deterministic default volume name
`"Layer_<i+1>"` (1-based) of spec section 4.1 step 3. -/
def defaultLayerName (i : Nat) : String := "Layer_" ++ Nat.repr (i + 1)

/-- Modelled from the spec: one directive of the emitted geometry script
(spec section 3, `GeometryScript`): geometric primitives for one layer's
solid, then physical-surface and physical-volume tagging directives. -/
inductive Directive where
  | solid (zlo zhi : ℚ) (radius : ℚ) (ml : ℚ) (sections : Nat)
  | physSurface (tag : Nat) (name : String)
  | physVolume (tag : Nat) (name : String)
deriving DecidableEq, Repr

/-- Modelled from the spec: cumulative z-offsets, `offset(0) = 0`,
`offset(i) = offset(i-1) + thickness(i-1)` (spec section 4.1 step 1). -/
def offsets (ts : List ℚ) : List ℚ := ts.scanl (· + ·) 0

/-- Modelled from the spec: the per-layer solids of spec section 4.1
step 2. -/
def solidDirectives (s : LayerStack) : List Directive :=
  (s.layersSeq.zip (offsets (s.layersSeq.map (fun l => l.thickness)))).map
    (fun p => Directive.solid p.2 (p.2 + p.1.thickness) s.radius s.ml p.1.subCount)

/-- Modelled from the spec: the physical-surface directives of spec
section 4.1 step 4 (caps, lateral surface, inter-layer interfaces), tags
from 1 in an independent sequence. -/
def surfaceDirectives (s : LayerStack) : List Directive :=
  [Directive.physSurface 1 "Bottom", Directive.physSurface 2 "Top",
   Directive.physSurface 3 "Lateral"] ++
    (List.range (s.layersSeq.length - 1)).map
      (fun i => Directive.physSurface (4 + i) ("Interface_" ++ Nat.repr (i + 1)))

/-- Modelled from the spec: the physical-volume directives of spec
section 4.1 step 3: tag `i+1` for layer `i`, named `layer_names[i]` or the
deterministic default. -/
def volumeDirectives (s : LayerStack) : List Directive :=
  s.layersSeq.enum.map
    (fun p => Directive.physVolume (p.1 + 1) (p.2.name.getD (defaultLayerName p.1)))

/-- Modelled from the spec: `build(stack) -> GeometryScript` of spec
section 4.1 (the missing `GeometryGenerator.generate_geo_script` of
`cylmesh/geometry.py`): re-asserts the stack invariants (refusing to emit a
partial script) and emits primitives, then surface directives, then volume
directives. -/
def buildScript (s : LayerStack) : Option (List Directive) :=
  if validStack s then
    some (solidDirectives s ++ surfaceDirectives s ++ volumeDirectives s)
  else none

/-- The volume physical groups of a script, in emission order. -/
def volumeGroups (ds : List Directive) : List (Nat × String) :=
  ds.filterMap (fun d =>
    match d with
    | Directive.physVolume t n => some (t, n)
    | _ => none)

/-!
Part 4: derived definitions used to state the claims: canonical artifact
shapes, well-formed `PhysicalNames` records, and concrete inputs.
-/

/-- The full script emitted for a valid stack. -/
def scriptOf (s : LayerStack) : List Directive :=
  solidDirectives s ++ surfaceDirectives s ++ volumeDirectives s

/-- A `PhysicalNames` record, given by its dimension field, tag field and
quoted name. -/
structure PRecord where
  ds : Chars
  ts : Chars
  name : Chars
deriving DecidableEq, Repr

/-- The artifact line `<dimension> <tag> "<name>"` of a record. -/
def recordLine (r : PRecord) : Chars :=
  r.ds ++ ' ' :: r.ts ++ ' ' :: '"' :: (r.name ++ ['"'])

/-- The mapping entry a record is expected to produce. -/
def entryOf (r : PRecord) : Chars × PhysEntry :=
  (r.name, ⟨(digitsToNat r.ds : Int), (digitsToNat r.ts : Int)⟩)

/-- Well-formedness of a record: numeric dimension and tag fields, and a
name that is a single token free of quotes and of the `$` used by the
section delimiters. -/
def wfRecord (r : PRecord) : Prop :=
  pyIsDigit r.ds = true ∧ pyIsDigit r.ts = true ∧
    ∀ c ∈ r.name, isSpace c = false ∧ c ≠ '"' ∧ c ≠ '$'

instance (r : PRecord) : Decidable (wfRecord r) := by
  unfold wfRecord; infer_instance

/-- The record lines of a section, each followed by a newline. -/
def joinRecs : List PRecord → Chars
  | [] => []
  | r :: rs => recordLine r ++ '\n' :: joinRecs rs

/-- Lines joined by single newlines, no trailing newline. -/
def interNl : List Chars → Chars
  | [] => []
  | [l] => l
  | l :: l2 :: ls => l ++ '\n' :: interNl (l2 :: ls)

/-- A canonical artifact containing a `PhysicalNames` section with count
line `cl` and records `rs`, amid arbitrary `$`-free preceding text and
arbitrary following text. -/
def c4content (pre cl : Chars) (rs : List PRecord) (post : Chars) : Chars :=
  pre ++ (physMarker ++ '\n' :: ((cl ++ '\n' :: joinRecs rs) ++ (endPhysMarker ++ post)))

/-- A record line whose quoted name has internal whitespace: the name is
`tok1 ++ " " ++ rest2`. -/
def spacedNameLine (ds ts tok1 rest2 : Chars) : Chars :=
  ds ++ ' ' :: ts ++ ' ' :: '"' :: (tok1 ++ ' ' :: (rest2 ++ ['"']))

/-- A canonical one-record `PhysicalNames` artifact around
`spacedNameLine`. -/
def c10content (ds ts tok1 rest2 post : Chars) : Chars :=
  physMarker ++ '\n' ::
    (('1' :: '\n' :: (spacedNameLine ds ts tok1 rest2 ++ ['\n'])) ++ (endPhysMarker ++ post))

/-- A canonical artifact with a `Nodes` section whose header line is `nh`
and an `Elements` section whose header line is `eh`. -/
def c5content (pre nh mid eh post : Chars) : Chars :=
  pre ++ (nodesMarker ++ '\n' ::
    (nh ++ '\n' :: (mid ++ (elemsMarker ++ '\n' :: (eh ++ '\n' :: post)))))

/-- Failing input for the parser's failure contract: the second record's
dimension field is non-numeric, so `int()` raises after the first record
was already stored. -/
def c1input : Chars :=
  ("$PhysicalNames\n2\n3 1 \"A\"\nx 2 \"B\"\n$EndPhysicalNames\n").toList

/-- Artifact whose `Nodes` header fails to parse while a well-formed
`Elements` header follows. -/
def c5cexInput : Chars := ("$Nodes\n1 2 3 x\n$Elements\n4 5 6 7\n\n").toList

/-- Artifact whose `Nodes` header carries a negative count. -/
def c8cexInput : Chars := ("$Nodes\n1 2 3 -5\n$EndNodes\n").toList

/-- Builder on which a named layer precedes an unnamed one but a later
named layer re-pads the names list. -/
def c9state : BuilderState :=
  applyOps (setMeshSize (setCylinder initBuilder 1) 1)
    [AddOp.named "A" 2 1, AddOp.unnamed 1 1, AddOp.named "B" 3 1]

/-- Thickness argument of an `add_layer` call. -/
def opThickness : AddOp → ℚ
  | AddOp.named _ t _ => t
  | AddOp.unnamed t _ => t

/-- The three-layer named stack of the spec's scenario. -/
def demoStack : LayerStack :=
  ⟨2, 10, [⟨2, 1, some "Bottom"⟩, ⟨1, 1, some "Spacer"⟩, ⟨3, 1, some "Top"⟩]⟩

/-!
Part 5: supporting lemmas.
-/

theorem isSpace_cases {c : Char} (h : isSpace c = true) :
    c = ' ' ∨ c = '\t' ∨ c = '\n' ∨ c = '\r' ∨ c = '\x0b' ∨ c = '\x0c' := by
  simp only [isSpace, Bool.or_eq_true, decide_eq_true_eq] at h
  tauto

theorem isSpace_false_of_isDigit {c : Char} (h : c.isDigit = true) :
    isSpace c = false := by
  cases hs : isSpace c with
  | false => rfl
  | true =>
    exfalso
    rcases isSpace_cases hs with rfl | rfl | rfl | rfl | rfl | rfl <;>
      exact absurd h (by decide)

theorem ne_of_isDigit {c d : Char} (h : c.isDigit = true) (hd : d.isDigit = false) :
    c ≠ d := by
  intro rfl0
  rw [rfl0] at h
  rw [h] at hd
  exact Bool.noConfusion hd

theorem ne_nl_of_isSpace_false {c : Char} (h : isSpace c = false) : c ≠ '\n' := by
  intro rfl0
  rw [rfl0] at h
  exact absurd h (by decide)

theorem dropWhile_eq_self_of_false {p : Char → Bool} (l : Chars)
    (h : ∀ c ∈ l, p c = false) : l.dropWhile p = l := by
  cases l with
  | nil => rfl
  | cons a t => rw [List.dropWhile_cons, h a (by simp)]; simp

theorem takeWhile_append_stop {p : Char → Bool} {X Y : Chars} {c : Char}
    (hX : ∀ d ∈ X, p d = true) (hc : p c = false) :
    (X ++ c :: Y).takeWhile p = X := by
  induction X with
  | nil => simp [List.takeWhile_cons, hc]
  | cons a t ih =>
    rw [List.cons_append, List.takeWhile_cons, hX a (by simp)]
    simp only [if_true, eq_self_iff_true, List.cons.injEq, true_and]
    exact ih (fun d hd => hX d (by simp [hd]))

theorem takeWhile_ne_nl_append {X : Chars} (Y : Chars) (hX : '\n' ∉ X) :
    (X ++ '\n' :: Y).takeWhile (fun c => !(c = '\n')) = X := by
  induction X with
  | nil => simp [List.takeWhile_cons]
  | cons a t ih =>
    have ha : a ≠ '\n' := by rintro rfl; exact hX (by simp)
    rw [List.cons_append, List.takeWhile_cons]
    have hb : (!decide (a = '\n')) = true := by simp [ha]
    rw [hb]
    simp only [if_true, eq_self_iff_true, List.cons.injEq, true_and]
    exact ih (fun hm => hX (by simp [hm]))

theorem pyStrip_eq_of_ends (s : Chars) (h1 : s.dropWhile isSpace = s)
    (h2 : s.reverse.dropWhile isSpace = s.reverse) :
    pyStrip (s ++ ['\n']) = s := by
  cases s with
  | nil => rfl
  | cons a t =>
    have ha : isSpace a = false := by
      cases hsp : isSpace a with
      | false => rfl
      | true =>
        exfalso
        rw [List.dropWhile_cons, hsp] at h1
        simp only [if_true, eq_self_iff_true] at h1
        have hlen := congrArg List.length h1
        have hle := (@List.dropWhile_sublist Char t isSpace).length_le
        simp only [List.length_cons] at hlen
        omega
    unfold pyStrip
    rw [List.cons_append, List.dropWhile_cons, ha]
    simp only [Bool.false_eq_true, if_false]
    have hrev : (a :: (t ++ ['\n'])).reverse = '\n' :: (a :: t).reverse := by
      simp
    rw [hrev, List.dropWhile_cons, if_pos (by decide : isSpace '\n' = true), h2]
    simp

theorem pyStrip_eq_self_of_no_space {s : Chars}
    (h : ∀ c ∈ s, isSpace c = false) : pyStrip s = s := by
  unfold pyStrip
  rw [dropWhile_eq_self_of_false s h,
    dropWhile_eq_self_of_false s.reverse (fun c hc => h c (List.mem_reverse.mp hc))]
  simp

theorem pyStrip_subset {s : Chars} : ∀ c ∈ pyStrip s, c ∈ s := by
  intro c hc
  unfold pyStrip at hc
  rw [List.mem_reverse] at hc
  have h1 := (@List.dropWhile_sublist Char (s.dropWhile isSpace).reverse
    isSpace).subset hc
  rw [List.mem_reverse] at h1
  exact (@List.dropWhile_sublist Char s isSpace).subset h1

theorem splitWsAux_token (tok rest acc : Chars)
    (h : ∀ c ∈ tok, isSpace c = false) :
    splitWsAux (tok ++ rest) acc = splitWsAux rest (tok.reverse ++ acc) := by
  induction tok generalizing acc with
  | nil => simp
  | cons c cs ih =>
    have hc : isSpace c = false := h c (by simp)
    rw [List.cons_append]
    show splitWsAux (c :: (cs ++ rest)) acc = _
    rw [splitWsAux, hc]
    simp only [Bool.false_eq_true, if_false]
    rw [ih (c :: acc) (fun d hd => h d (by simp [hd]))]
    simp

theorem pySplitWs_cons_token {tok : Chars} (rest : Chars) (hne : tok ≠ [])
    (h : ∀ c ∈ tok, isSpace c = false) :
    pySplitWs (tok ++ ' ' :: rest) = tok :: pySplitWs rest := by
  unfold pySplitWs
  rw [splitWsAux_token tok (' ' :: rest) [] h]
  show splitWsAux (' ' :: rest) (tok.reverse ++ []) = _
  rw [splitWsAux]
  have h1 : isSpace ' ' = true := by decide
  rw [h1]
  simp only [if_true, eq_self_iff_true]
  have h2 : (tok.reverse ++ []).isEmpty = false := by
    cases htok : tok.reverse with
    | nil => exact absurd (by simpa using htok) hne
    | cons x xs => simp [htok, List.isEmpty]
  rw [h2]
  simp

theorem pySplitWs_single {tok : Chars} (hne : tok ≠ [])
    (h : ∀ c ∈ tok, isSpace c = false) : pySplitWs tok = [tok] := by
  unfold pySplitWs
  have := splitWsAux_token tok [] [] h
  rw [List.append_nil] at this
  rw [this]
  show splitWsAux [] (tok.reverse ++ []) = _
  rw [splitWsAux]
  have h2 : (tok.reverse ++ []).isEmpty = false := by
    cases htok : tok.reverse with
    | nil => exact absurd (by simpa using htok) hne
    | cons x xs => simp [htok, List.isEmpty]
  rw [h2]
  simp

theorem splitWsAux_mem_subset :
    ∀ (s acc piece : Chars), piece ∈ splitWsAux s acc →
      ∀ c ∈ piece, c ∈ s ∨ c ∈ acc := by
  intro s
  induction s with
  | nil =>
    intro acc piece hp c hc
    rw [splitWsAux] at hp
    by_cases he : acc.isEmpty
    · simp [he] at hp
    · simp only [he, if_false, Bool.false_eq_true] at hp
      right
      rw [List.mem_singleton.mp hp] at hc
      exact List.mem_reverse.mp hc
  | cons d cs ih =>
    intro acc piece hp c hc
    rw [splitWsAux] at hp
    by_cases hd : isSpace d = true
    · simp only [hd, if_true, eq_self_iff_true] at hp
      by_cases he : acc.isEmpty
      · simp only [he, if_true, eq_self_iff_true] at hp
        rcases ih [] piece hp c hc with h | h
        · exact Or.inl (by simp [h])
        · simp at h
      · simp only [he, if_false, Bool.false_eq_true, List.mem_cons] at hp
        rcases hp with rfl | hp
        · exact Or.inr (List.mem_reverse.mp hc)
        · rcases ih [] piece hp c hc with h | h
          · exact Or.inl (by simp [h])
          · simp at h
    · rw [Bool.not_eq_true] at hd
      simp only [hd, if_false, Bool.false_eq_true] at hp
      rcases ih (d :: acc) piece hp c hc with h | h
      · exact Or.inl (by simp [h])
      · rcases List.mem_cons.mp h with rfl | h
        · exact Or.inl (by simp)
        · exact Or.inr h

theorem pySplitWs_subset {s piece : Chars} (hp : piece ∈ pySplitWs s) :
    ∀ c ∈ piece, c ∈ s := by
  intro c hc
  rcases splitWsAux_mem_subset s [] piece hp c hc with h | h
  · exact h
  · simp at h

theorem splitNlAux_token (tok rest acc : Chars) (h : '\n' ∉ tok) :
    splitNlAux (tok ++ rest) acc = splitNlAux rest (tok.reverse ++ acc) := by
  induction tok generalizing acc with
  | nil => simp
  | cons c cs ih =>
    have hc : c ≠ '\n' := by rintro rfl; exact h (by simp)
    rw [List.cons_append]
    show splitNlAux (c :: (cs ++ rest)) acc = _
    rw [splitNlAux]
    simp only [hc, if_false, Bool.false_eq_true]
    rw [ih (c :: acc) (fun hm => h (by simp [hm]))]
    simp

theorem pySplitNl_cons_line {tok : Chars} (rest : Chars) (h : '\n' ∉ tok) :
    pySplitNl (tok ++ '\n' :: rest) = tok :: pySplitNl rest := by
  unfold pySplitNl
  rw [splitNlAux_token tok ('\n' :: rest) [] h]
  show splitNlAux ('\n' :: rest) (tok.reverse ++ []) = _
  rw [splitNlAux]
  simp

theorem pySplitNl_single {tok : Chars} (h : '\n' ∉ tok) : pySplitNl tok = [tok] := by
  unfold pySplitNl
  have := splitNlAux_token tok [] [] h
  rw [List.append_nil] at this
  rw [this, splitNlAux]
  simp

theorem startsWith_append_self (p t : Chars) : startsWith p (p ++ t) = true := by
  induction p with
  | nil => rfl
  | cons c cs ih =>
    rw [List.cons_append]
    show startsWith (c :: cs) (c :: (cs ++ t)) = true
    rw [startsWith, if_pos rfl]
    exact ih

theorem startsWith_cons_false {p : Chars} {c : Char} {cs : Chars}
    (hp : p ≠ []) (h : p.headD ' ' ≠ c) : startsWith p (c :: cs) = false := by
  cases p with
  | nil => exact absurd rfl hp
  | cons q qs =>
    rw [startsWith, if_neg]
    intro hq
    exact h (by simpa using hq)

theorem findSub_self_append {p t : Chars} (hp : p ≠ []) :
    findSub p (p ++ t) = some 0 := by
  cases p with
  | nil => exact absurd rfl hp
  | cons q qs =>
    rw [List.cons_append]
    show findSub (q :: qs) (q :: (qs ++ t)) = some 0
    rw [findSub, if_pos]
    rw [← List.cons_append]
    exact startsWith_append_self (q :: qs) t

theorem findSub_dollar_skip (ptail b t : Chars) (hb : ∀ c ∈ b, c ≠ '$') :
    findSub ('$' :: ptail) (b ++ (('$' :: ptail) ++ t)) = some b.length := by
  induction b with
  | nil =>
    simp only [List.nil_append, List.length_nil]
    exact findSub_self_append (by simp)
  | cons c cs ih =>
    have hc : c ≠ '$' := hb c (by simp)
    rw [List.cons_append]
    show findSub ('$' :: ptail) (c :: (cs ++ (('$' :: ptail) ++ t))) = _
    rw [findSub, if_neg]
    · rw [ih (fun d hd => hb d (by simp [hd]))]
      simp
    · rw [startsWith_cons_false (by simp) (by simpa using Ne.symm hc)]
      simp

theorem findSub_none_cons {p : Chars} {c : Char} {cs : Chars}
    (h : findSub p (c :: cs) = none) :
    startsWith p (c :: cs) = false ∧ findSub p cs = none := by
  rw [findSub] at h
  by_cases hs : startsWith p (c :: cs) = true
  · rw [if_pos hs] at h; exact absurd h (by simp)
  · rw [Bool.not_eq_true] at hs
    refine ⟨hs, ?_⟩
    rw [if_neg (by simp [hs])] at h
    exact Option.map_eq_none.mp h

theorem physAt_none_of_head {c : Char} {cs : Chars} (h : c ≠ '$') :
    physAt (c :: cs) = none := by
  unfold physAt
  rw [startsWith_cons_false (by simp [physMarker]) (by simp [physMarker]; exact Ne.symm h)]
  simp

theorem searchPhys_cons (c : Char) (cs : Chars) :
    searchPhys (c :: cs) =
      match physAt (c :: cs) with
      | some g => some g
      | none => searchPhys cs := rfl

theorem searchPhys_skip {pre : Chars} (rest : Chars) (h : ∀ c ∈ pre, c ≠ '$') :
    searchPhys (pre ++ rest) = searchPhys rest := by
  induction pre with
  | nil => rfl
  | cons c cs ih =>
    rw [List.cons_append, searchPhys_cons,
      physAt_none_of_head (h c (by simp))]
    exact ih (fun d hd => h d (by simp [hd]))

theorem searchPhys_none_of_no_marker {content : Chars}
    (h : containsSub content physMarker = false) : searchPhys content = none := by
  induction content with
  | nil => rfl
  | cons c cs ih =>
    unfold containsSub at h
    have hn : findSub physMarker (c :: cs) = none := by
      cases hf : findSub physMarker (c :: cs) with
      | none => rfl
      | some v => rw [hf] at h; simp at h
    rcases findSub_none_cons hn with ⟨h1, h2⟩
    rw [searchPhys_cons]
    have hat : physAt (c :: cs) = none := by
      unfold physAt
      rw [h1]
      simp
    rw [hat]
    exact ih (by unfold containsSub; rw [h2]; rfl)

theorem lineAt_none_of_head {mtail : Chars} {c : Char} {cs : Chars} (h : c ≠ '$') :
    lineAt ('$' :: mtail) (c :: cs) = none := by
  unfold lineAt
  rw [startsWith_cons_false (by simp) (by simpa using Ne.symm h)]
  simp

theorem searchLine_cons (m : Chars) (c : Char) (cs : Chars) :
    searchLine m (c :: cs) =
      match lineAt m (c :: cs) with
      | some g => some g
      | none => searchLine m cs := rfl

theorem searchLine_step {m : Chars} {c : Char} {cs : Chars}
    (h : lineAt m (c :: cs) = none) : searchLine m (c :: cs) = searchLine m cs := by
  rw [searchLine_cons, h]

theorem searchLine_skip {mtail pre : Chars} (rest : Chars) (h : ∀ c ∈ pre, c ≠ '$') :
    searchLine ('$' :: mtail) (pre ++ rest) = searchLine ('$' :: mtail) rest := by
  induction pre with
  | nil => rfl
  | cons c cs ih =>
    rw [List.cons_append, searchLine_step (lineAt_none_of_head (h c (by simp)))]
    exact ih (fun d hd => h d (by simp [hd]))

theorem searchLine_none_of_no_marker {mtail content : Chars}
    (h : containsSub content ('$' :: mtail) = false) :
    searchLine ('$' :: mtail) content = none := by
  induction content with
  | nil => rfl
  | cons c cs ih =>
    unfold containsSub at h
    have hn : findSub ('$' :: mtail) (c :: cs) = none := by
      cases hf : findSub ('$' :: mtail) (c :: cs) with
      | none => rfl
      | some v => rw [hf] at h; simp at h
    rcases findSub_none_cons hn with ⟨h1, h2⟩
    have hat : lineAt ('$' :: mtail) (c :: cs) = none := by
      unfold lineAt
      rw [h1]
      simp
    rw [searchLine_step hat]
    exact ih (by unfold containsSub; rw [h2]; rfl)

theorem physAt_marker {body : Chars} (post : Chars)
    (hb : ∀ c ∈ body, c ≠ '$')
    (hc0 : ∃ c0 bs, body = c0 :: bs ∧ isSpace c0 = false) :
    physAt (physMarker ++ '\n' :: (body ++ (endPhysMarker ++ post))) = some body := by
  rcases hc0 with ⟨c0, bs, rfl, hc0⟩
  have hfold : ('$' :: endPhysTail : Chars) = endPhysMarker := rfl
  have hfind : findSub endPhysMarker (c0 :: (bs ++ (endPhysMarker ++ post)))
      = some (bs.length + 1) := by
    have h0 := findSub_dollar_skip endPhysTail (c0 :: bs) post hb
    rw [hfold] at h0
    simp only [List.cons_append, List.length_cons] at h0
    exact h0
  simp only [physAt]
  rw [startsWith_append_self, if_pos rfl, List.drop_left]
  simp only [List.cons_append]
  have hrun : List.takeWhile isSpace ('\n' :: c0 :: (bs ++ (endPhysMarker ++ post)))
      = ['\n'] := by
    rw [List.takeWhile_cons, if_pos (by decide : isSpace '\n' = true),
      List.takeWhile_cons, hc0]
    simp
  rw [hrun, if_pos (by decide : ((['\n'] : Chars).any fun c => decide (c = '\n')) = true)]
  have hafter : afterLastNl ['\n'] = 1 := by decide
  rw [hafter, List.drop_one, List.tail_cons, hfind]
  show some (List.take (bs.length + 1) (c0 :: (bs ++ (endPhysMarker ++ post))))
      = some (c0 :: bs)
  rw [List.take_succ_cons, List.take_left]

theorem searchPhys_marker {body : Chars} (post : Chars)
    (hb : ∀ c ∈ body, c ≠ '$')
    (hc0 : ∃ c0 bs, body = c0 :: bs ∧ isSpace c0 = false) :
    searchPhys (physMarker ++ '\n' :: (body ++ (endPhysMarker ++ post))) = some body := by
  have hshape : physMarker ++ '\n' :: (body ++ (endPhysMarker ++ post)) =
      '$' :: (physTail ++ '\n' :: (body ++ (endPhysMarker ++ post))) := rfl
  rw [hshape, searchPhys_cons, ← hshape, physAt_marker post hb hc0]

theorem lineAt_marker {mtail nh : Chars} (post : Chars)
    (hnl : '\n' ∉ nh)
    (hc0 : ∃ c0 bs, nh = c0 :: bs ∧ isSpace c0 = false) :
    lineAt ('$' :: mtail) (('$' :: mtail) ++ '\n' :: (nh ++ '\n' :: post)) = some nh := by
  rcases hc0 with ⟨c0, bs, rfl, hc0⟩
  simp only [lineAt]
  rw [startsWith_append_self, if_pos rfl, List.drop_left]
  simp only [List.cons_append]
  have hrun : List.takeWhile isSpace ('\n' :: c0 :: (bs ++ '\n' :: post)) = ['\n'] := by
    rw [List.takeWhile_cons, if_pos (by decide : isSpace '\n' = true),
      List.takeWhile_cons, hc0]
    simp
  rw [hrun]
  have hcands : nlPositionsDesc ['\n'] = [0] := by decide
  rw [hcands]
  simp only [tryCands, Nat.zero_add]
  rw [List.drop_one, List.tail_cons]
  have hany : (c0 :: (bs ++ '\n' :: post)).any (fun c => decide (c = '\n')) = true := by
    rw [List.any_eq_true]
    exact ⟨'\n', by simp, by simp⟩
  rw [if_pos hany]
  have htw := takeWhile_ne_nl_append post hnl
  simp only [List.cons_append] at htw
  rw [htw]

theorem searchLine_marker {mtail nh : Chars} (post : Chars)
    (hnl : '\n' ∉ nh)
    (hc0 : ∃ c0 bs, nh = c0 :: bs ∧ isSpace c0 = false) :
    searchLine ('$' :: mtail) (('$' :: mtail) ++ '\n' :: (nh ++ '\n' :: post))
      = some nh := by
  rw [List.cons_append, searchLine_cons, ← List.cons_append,
    lineAt_marker post hnl hc0]

theorem tryCands_subset {rest g : Chars} :
    ∀ ps : List Nat, tryCands rest ps = some g → ∀ c ∈ g, c ∈ rest := by
  intro ps
  induction ps with
  | nil => intro h; exact absurd h (by rw [tryCands]; simp)
  | cons p ps ih =>
    intro h c hc
    rw [tryCands] at h
    by_cases ha : (rest.drop (p + 1)).any (fun c => c = '\n') = true
    · rw [if_pos ha] at h
      have hg : g = (rest.drop (p + 1)).takeWhile (fun c => !(c = '\n')) := by
        exact (Option.some.injEq _ _ ▸ h).symm
      rw [hg] at hc
      have h1 := (@List.takeWhile_sublist Char (rest.drop (p + 1))
        (fun c => !(c = '\n'))).subset hc
      exact (List.drop_sublist (p + 1) rest).subset h1
    · rw [if_neg ha] at h
      exact ih h c hc

theorem lineAt_subset {m cs g : Chars} (h : lineAt m cs = some g) :
    ∀ c ∈ g, c ∈ cs := by
  intro c hc
  unfold lineAt at h
  by_cases hs : startsWith m cs = true
  · rw [if_pos hs] at h
    have h1 := tryCands_subset _ h c hc
    exact (List.drop_sublist m.length cs).subset h1
  · rw [if_neg (by simpa using hs)] at h
    exact absurd h (by simp)

theorem searchLine_subset {m : Chars} :
    ∀ {content g : Chars}, searchLine m content = some g → ∀ c ∈ g, c ∈ content := by
  intro content
  induction content with
  | nil => intro g h; exact absurd h (by rw [searchLine]; simp)
  | cons d cs ih =>
    intro g h c hc
    rw [searchLine_cons] at h
    cases hl : lineAt m (d :: cs) with
    | some g2 =>
      rw [hl] at h
      have : g = g2 := by simpa using h.symm
      exact lineAt_subset hl c (this ▸ hc)
    | none =>
      rw [hl] at h
      exact List.mem_cons_of_mem d (ih h c hc)

theorem pyIsDigit_mem {s : Chars} (h : pyIsDigit s = true) :
    ∀ c ∈ s, c.isDigit = true := by
  unfold pyIsDigit at h
  rw [Bool.and_eq_true, List.all_eq_true] at h
  exact fun c hc => h.2 c hc

theorem pyIsDigit_ne_nil {s : Chars} (h : pyIsDigit s = true) : s ≠ [] := by
  intro rfl0
  rw [rfl0] at h
  exact absurd h (by decide)

theorem digits_no_space {s : Chars} (h : pyIsDigit s = true) :
    ∀ c ∈ s, isSpace c = false :=
  fun c hc => isSpace_false_of_isDigit (pyIsDigit_mem h c hc)

theorem digits_ne_dollar {s : Chars} (h : pyIsDigit s = true) :
    ∀ c ∈ s, c ≠ '$' :=
  fun c hc => ne_of_isDigit (pyIsDigit_mem h c hc) (by decide)

theorem digits_no_nl {s : Chars} (h : pyIsDigit s = true) : '\n' ∉ s := by
  intro hm
  exact absurd (pyIsDigit_mem h '\n' hm) (by decide)

theorem pyStrip_digits {s : Chars} (h : pyIsDigit s = true) : pyStrip s = s :=
  pyStrip_eq_self_of_no_space (digits_no_space h)

theorem pyInt_digits {s : Chars} (h : pyIsDigit s = true) :
    pyInt s = some ((digitsToNat s : Int)) := by
  rcases List.exists_cons_of_ne_nil (pyIsDigit_ne_nil h) with ⟨c, rest, rfl⟩
  have hc : c.isDigit = true := pyIsDigit_mem h c (by simp)
  unfold pyInt
  rw [pyStrip_digits h]
  rw [if_neg (by simp : ¬((c :: rest : Chars) = []))]
  have hh : (c :: rest : Chars).headD ' ' = c := rfl
  rw [hh, if_neg (ne_of_isDigit hc (by decide)), if_neg (ne_of_isDigit hc (by decide)),
    if_pos h]

theorem pyInt_nil : pyInt [] = none := by decide

theorem pyInt_nonneg {s : Chars} (hms : '-' ∉ s) {v : Int}
    (hv : pyInt s = some v) : 0 ≤ v := by
  unfold pyInt at hv
  by_cases h0 : pyStrip s = []
  · rw [if_pos h0] at hv; exact absurd hv (by simp)
  · rw [if_neg h0] at hv
    have hhead : (pyStrip s).headD ' ' ≠ '-' := by
      rcases List.exists_cons_of_ne_nil h0 with ⟨c, rest, hc⟩
      rw [hc]
      intro hcm
      have : c ∈ pyStrip s := by rw [hc]; simp
      have : c ∈ s := pyStrip_subset c this
      rw [show c = '-' from hcm] at this
      exact hms this
    rw [if_neg hhead] at hv
    by_cases hplus : (pyStrip s).headD ' ' = '+'
    · rw [if_pos hplus] at hv
      by_cases hd : pyIsDigit (pyStrip s).tail = true
      · rw [if_pos hd] at hv
        have : v = ((digitsToNat (pyStrip s).tail : Int)) := by
          simpa using hv.symm
        rw [this]
        exact Int.natCast_nonneg _
      · rw [if_neg hd] at hv; exact absurd hv (by simp)
    · rw [if_neg hplus] at hv
      by_cases hd : pyIsDigit (pyStrip s) = true
      · rw [if_pos hd] at hv
        have : v = ((digitsToNat (pyStrip s) : Int)) := by simpa using hv.symm
        rw [this]
        exact Int.natCast_nonneg _
      · rw [if_neg hd] at hv; exact absurd hv (by simp)

theorem pyStripQuotes_wrap {name : Chars} (h : ∀ c ∈ name, c ≠ '"') :
    pyStripQuotes ('"' :: (name ++ ['"'])) = name := by
  unfold pyStripQuotes
  rw [List.dropWhile_cons, if_pos (by decide : (decide ('"' = '"')) = true)]
  cases name with
  | nil => decide
  | cons m M =>
    have hm : m ≠ '"' := h m (by simp)
    rw [List.cons_append, List.dropWhile_cons, if_neg (by simp [hm])]
    rw [show (m :: (M ++ ['"'])).reverse = '"' :: (m :: M).reverse by simp]
    rw [List.dropWhile_cons, if_pos (by decide : (decide ('"' = '"')) = true)]
    rw [dropWhile_eq_self_of_false (m :: M).reverse
      (fun c hc => by simp [h c (List.mem_reverse.mp hc)])]
    simp

theorem pyStripQuotes_open {tok : Chars} (h : ∀ c ∈ tok, c ≠ '"') :
    pyStripQuotes ('"' :: tok) = tok := by
  unfold pyStripQuotes
  rw [List.dropWhile_cons, if_pos (by decide : (decide ('"' = '"')) = true)]
  rw [dropWhile_eq_self_of_false tok (fun c hc => by simp [h c hc])]
  rw [dropWhile_eq_self_of_false tok.reverse
    (fun c hc => by simp [h c (List.mem_reverse.mp hc)])]
  simp

theorem recordLine_shape (r : PRecord) :
    recordLine r = r.ds ++ ' ' :: (r.ts ++ ' ' :: ('"' :: (r.name ++ ['"']))) := by
  simp [recordLine]

theorem recordLine_split {r : PRecord} (hr : wfRecord r) :
    pySplitWs (recordLine r) = [r.ds, r.ts, '"' :: (r.name ++ ['"'])] := by
  obtain ⟨h1, h2, h3⟩ := hr
  rw [recordLine_shape]
  rw [pySplitWs_cons_token _ (pyIsDigit_ne_nil h1) (digits_no_space h1)]
  rw [pySplitWs_cons_token _ (pyIsDigit_ne_nil h2) (digits_no_space h2)]
  rw [pySplitWs_single (by simp)]
  intro c hc
  rcases List.mem_cons.mp hc with rfl | hc2
  · decide
  · rcases List.mem_append.mp hc2 with hc3 | hc4
    · exact (h3 c hc3).1
    · rw [List.mem_singleton.mp hc4]; decide

theorem recordLine_no_dollar {r : PRecord} (hr : wfRecord r) :
    ∀ c ∈ recordLine r, c ≠ '$' := by
  intro c hc
  rw [recordLine_shape] at hc
  rcases List.mem_append.mp hc with hds | hc1
  · exact digits_ne_dollar hr.1 c hds
  · rcases List.mem_cons.mp hc1 with rfl | hc2
    · decide
    · rcases List.mem_append.mp hc2 with hts | hc3
      · exact digits_ne_dollar hr.2.1 c hts
      · rcases List.mem_cons.mp hc3 with rfl | hc4
        · decide
        · rcases List.mem_cons.mp hc4 with rfl | hc5
          · decide
          · rcases List.mem_append.mp hc5 with hnm | hc6
            · exact (hr.2.2 c hnm).2.2
            · rw [List.mem_singleton.mp hc6]; decide

theorem recordLine_no_nl {r : PRecord} (hr : wfRecord r) : '\n' ∉ recordLine r := by
  intro hc
  rw [recordLine_shape] at hc
  rcases List.mem_append.mp hc with hds | hc1
  · exact absurd (pyIsDigit_mem hr.1 '\n' hds) (by decide)
  · rcases List.mem_cons.mp hc1 with heq | hc2
    · exact absurd heq (by decide)
    · rcases List.mem_append.mp hc2 with hts | hc3
      · exact absurd (pyIsDigit_mem hr.2.1 '\n' hts) (by decide)
      · rcases List.mem_cons.mp hc3 with heq | hc4
        · exact absurd heq (by decide)
        · rcases List.mem_cons.mp hc4 with heq | hc5
          · exact absurd heq (by decide)
          · rcases List.mem_append.mp hc5 with hnm | hc6
            · exact absurd ((hr.2.2 '\n' hnm).1)
                (by rw [show isSpace '\n' = true by decide]; simp)
            · exact absurd (List.mem_singleton.mp hc6) (by decide)

theorem recordLine_snoc (r : PRecord) :
    recordLine r = (r.ds ++ ' ' :: (r.ts ++ ' ' :: ('"' :: r.name))) ++ ['"'] := by
  simp [recordLine]

theorem joinRecs_no_dollar {rs : List PRecord} (h : ∀ r ∈ rs, wfRecord r) :
    ∀ c ∈ joinRecs rs, c ≠ '$' := by
  induction rs with
  | nil => intro c hc; rw [joinRecs] at hc; exact absurd hc (by simp)
  | cons r rs ih =>
    intro c hc
    rw [joinRecs] at hc
    rcases List.mem_append.mp hc with h1 | h2
    · exact recordLine_no_dollar (h r (by simp)) c h1
    · rcases List.mem_cons.mp h2 with rfl | h3
      · decide
      · exact ih (fun r2 hr2 => h r2 (by simp [hr2])) c h3

theorem joinRecs_eq_interNl (r : PRecord) (rs : List PRecord) :
    joinRecs (r :: rs) = interNl ((r :: rs).map recordLine) ++ ['\n'] := by
  induction rs generalizing r with
  | nil => simp [joinRecs, interNl]
  | cons r2 rs2 ih =>
    rw [show joinRecs (r :: r2 :: rs2) = recordLine r ++ '\n' :: joinRecs (r2 :: rs2)
      from rfl]
    rw [ih r2]
    simp only [List.map_cons]
    rw [show interNl (recordLine r :: recordLine r2 :: List.map recordLine rs2)
        = recordLine r ++ '\n' :: interNl (recordLine r2 :: List.map recordLine rs2)
      from rfl]
    simp

theorem interNl_ends_quote :
    ∀ (rs : List PRecord) (r : PRecord),
      ∃ Z, interNl ((r :: rs).map recordLine) = Z ++ ['"'] := by
  intro rs
  induction rs with
  | nil =>
    intro r
    exact ⟨r.ds ++ ' ' :: (r.ts ++ ' ' :: ('"' :: r.name)), by
      simp [interNl, recordLine_snoc]⟩
  | cons r2 rs2 ih =>
    intro r
    rcases ih r2 with ⟨Z, hZ⟩
    refine ⟨recordLine r ++ '\n' :: Z, ?_⟩
    rw [List.map_cons]
    rw [show interNl (recordLine r :: (r2 :: rs2).map recordLine)
        = recordLine r ++ '\n' :: interNl ((r2 :: rs2).map recordLine) from ?_]
    · rw [hZ]; simp
    · rw [List.map_cons]; rfl

theorem pySplitNl_interNl :
    ∀ (ls : List Chars), (∀ l ∈ ls, '\n' ∉ l) → ls ≠ [] →
      pySplitNl (interNl ls) = ls := by
  intro ls
  induction ls with
  | nil => intro _ h; exact absurd rfl h
  | cons l ls ih =>
    intro h _
    cases ls with
    | nil => exact pySplitNl_single (h l (by simp))
    | cons l2 ls2 =>
      rw [show interNl (l :: l2 :: ls2) = l ++ '\n' :: interNl (l2 :: ls2) from rfl]
      rw [pySplitNl_cons_line _ (h l (by simp))]
      rw [ih (fun l3 hl3 => h l3 (by simp [hl3])) (by simp)]

theorem physSection_strip_split {cl : Chars} {rs : List PRecord}
    (hcl : pyIsDigit cl = true) (hrs : ∀ r ∈ rs, wfRecord r) :
    pySplitNl (pyStrip (cl ++ '\n' :: joinRecs rs)) = cl :: rs.map recordLine := by
  have hclnl : '\n' ∉ cl := digits_no_nl hcl
  have h1cl : cl.dropWhile isSpace = cl :=
    dropWhile_eq_self_of_false cl (digits_no_space hcl)
  cases rs with
  | nil =>
    rw [show joinRecs [] = ([] : Chars) from rfl]
    rw [show cl ++ '\n' :: ([] : Chars) = cl ++ ['\n'] from rfl]
    rw [pyStrip_eq_of_ends cl h1cl
      (dropWhile_eq_self_of_false cl.reverse
        (fun c hc => digits_no_space hcl c (List.mem_reverse.mp hc)))]
    rw [pySplitNl_single hclnl]
    simp
  | cons r rs2 =>
    rw [joinRecs_eq_interNl r rs2]
    rw [show cl ++ '\n' :: (interNl ((r :: rs2).map recordLine) ++ ['\n'])
        = (cl ++ '\n' :: interNl ((r :: rs2).map recordLine)) ++ ['\n'] by simp]
    rcases List.exists_cons_of_ne_nil (pyIsDigit_ne_nil hcl) with ⟨c0, cl2, hcl0⟩
    have hclc : pyIsDigit (c0 :: cl2) = true := hcl0 ▸ hcl
    have hc0 : isSpace c0 = false := digits_no_space hclc c0 (by simp)
    have hS1 : (cl ++ '\n' :: interNl ((r :: rs2).map recordLine)).dropWhile isSpace
        = cl ++ '\n' :: interNl ((r :: rs2).map recordLine) := by
      rw [hcl0, List.cons_append, List.dropWhile_cons, hc0]
      simp
    rcases interNl_ends_quote rs2 r with ⟨Z, hZ⟩
    have hS2 : (cl ++ '\n' :: interNl ((r :: rs2).map recordLine)).reverse.dropWhile
        isSpace = (cl ++ '\n' :: interNl ((r :: rs2).map recordLine)).reverse := by
      rw [hZ]
      rw [show cl ++ '\n' :: (Z ++ ['"']) = (cl ++ '\n' :: Z) ++ ['"'] by simp]
      rw [show ((cl ++ '\n' :: Z) ++ ['"']).reverse = '"' :: (cl ++ '\n' :: Z).reverse
        by simp]
      rw [List.dropWhile_cons, if_neg (by decide)]
    rw [pyStrip_eq_of_ends _ hS1 hS2]
    rw [pySplitNl_cons_line _ hclnl]
    rw [pySplitNl_interNl _ (fun l hl => by
      rcases List.mem_map.mp hl with ⟨r2, hr2, rfl⟩
      exact recordLine_no_nl (hrs r2 hr2)) (by simp)]

theorem processRecord_record {g : List (Chars × PhysEntry)} {r : PRecord}
    (hr : wfRecord r) :
    processRecord g (recordLine r) =
      some (updateAssoc g r.name
        ⟨(digitsToNat r.ds : Int), (digitsToNat r.ts : Int)⟩) := by
  unfold processRecord
  rw [recordLine_split hr]
  rw [if_pos (by simp)]
  have h0 : ([r.ds, r.ts, '"' :: (r.name ++ ['"'])].getD 0 []) = r.ds := rfl
  have h1 : ([r.ds, r.ts, '"' :: (r.name ++ ['"'])].getD 1 []) = r.ts := rfl
  have h2 : ([r.ds, r.ts, '"' :: (r.name ++ ['"'])].getD 2 [])
      = '"' :: (r.name ++ ['"']) := rfl
  rw [h0, h1, h2, pyInt_digits hr.1, pyInt_digits hr.2.1,
    pyStripQuotes_wrap (fun c hc => (hr.2.2 c hc).2.1)]

theorem physLoop_clean :
    ∀ (rsT : List PRecord) (acc : List (Chars × PhysEntry)),
      (∀ r ∈ rsT, wfRecord r) →
      (∀ r ∈ rsT, ∀ p ∈ acc, p.1 ≠ r.name) →
      ((rsT.map (fun r => r.name)).Nodup) →
      physLoop (rsT.map recordLine) acc = (acc ++ rsT.map entryOf, false) := by
  intro rsT
  induction rsT with
  | nil => intro acc _ _ _; simp [physLoop]
  | cons r rs ih =>
    intro acc hwf hdisj hnd
    rw [List.map_cons]
    rw [show physLoop (recordLine r :: List.map recordLine rs) acc =
        (if (processRecord acc (recordLine r)).isSome then
          physLoop (List.map recordLine rs) ((processRecord acc (recordLine r)).getD acc)
         else (acc, true)) from rfl]
    rw [processRecord_record (hwf r (by simp))]
    have hupd : updateAssoc acc r.name
        ⟨(digitsToNat r.ds : Int), (digitsToNat r.ts : Int)⟩
        = acc ++ [(r.name, ⟨(digitsToNat r.ds : Int), (digitsToNat r.ts : Int)⟩)] := by
      unfold updateAssoc
      rw [if_neg]
      rw [List.any_eq_true]
      rintro ⟨p, hp, he⟩
      exact hdisj r (by simp) p hp (by simpa using he)
    rw [hupd]
    simp only [Option.isSome_some, if_true, Option.getD_some]
    have hnd2 : r.name ∉ List.map (fun r => r.name) rs ∧
        (List.map (fun r => r.name) rs).Nodup := by
      rw [List.map_cons] at hnd
      exact List.nodup_cons.mp hnd
    rw [ih _ (fun r2 hr2 => hwf r2 (by simp [hr2]))
      (by
        intro r2 hr2 p hp
        rcases List.mem_append.mp hp with hin | hone
        · exact hdisj r2 (by simp [hr2]) p hin
        · rw [List.mem_singleton.mp hone]
          intro hcon
          exact hnd2.1 (by
            rw [show r.name = r2.name from hcon]
            exact List.mem_map.mpr ⟨r2, hr2, rfl⟩))
      hnd2.2]
    simp [entryOf]

theorem physStage_section {cl : Chars} {rs : List PRecord}
    (hcl : pyIsDigit cl = true) (hrs : ∀ r ∈ rs, wfRecord r)
    (hnd : (rs.map (fun r => r.name)).Nodup) :
    physStage (cl ++ '\n' :: joinRecs rs) [] =
      ((rs.take (digitsToNat cl)).map entryOf, false) := by
  unfold physStage
  rw [physSection_strip_split hcl hrs]
  rw [show (match cl :: rs.map recordLine with
      | [] => (([] : List (Chars × PhysEntry)), false)
      | l0 :: rest =>
        if pyIsDigit l0 then physLoop (rest.take (digitsToNat l0)) []
        else ([], false)) =
      (if pyIsDigit cl then
        physLoop ((rs.map recordLine).take (digitsToNat cl)) [] else ([], false))
    from rfl]
  rw [if_pos hcl, ← List.map_take]
  rw [physLoop_clean _ []
    (fun r hr => hrs r ((List.take_sublist _ _).subset hr))
    (by simp)
    (by
      rw [List.map_take]
      exact ((List.map (fun r => r.name) rs).take_sublist (digitsToNat cl)).nodup
        (by simpa using hnd))]
  simp

theorem runPhysG_of_search_none {content : Chars} (g0 : List (Chars × PhysEntry))
    (h : searchPhys content = none) : runPhysG content g0 = (g0, false) := by
  unfold runPhysG
  rw [h]

theorem runPhysG_of_search_some {content grp : Chars} (g0 : List (Chars × PhysEntry))
    (h : searchPhys content = some grp) : runPhysG content g0 = physStage grp g0 := by
  unfold runPhysG
  rw [h]

theorem runCount_of_search_none {m content : Chars}
    (h : searchLine m content = none) : runCount m content = (none, false) := by
  unfold runCount
  rw [h]

theorem runCount_of_search_some {m content g : Chars}
    (h : searchLine m content = some g) : runCount m content = headerCount g := by
  unfold runCount
  rw [h]

theorem stAfterNodes_groups (st : MeshStatistics) (rn : Option Int × Bool) :
    (stAfterNodes st rn).physical_groups = st.physical_groups := by
  cases h : rn.1 <;> simp [stAfterNodes, h]

theorem stAfterElems_groups (st : MeshStatistics) (re2 : Option Int × Bool) :
    (stAfterElems st re2).physical_groups = st.physical_groups := by
  cases h : re2.1 <;> simp [stAfterElems, h]

theorem extract_groups (content : Chars) :
    (extractMeshStatistics content).physical_groups = (runPhysG content []).1 := by
  unfold extractMeshStatistics
  by_cases h1 : (runPhysG content []).2 = true
  · rw [if_pos h1]
  · rw [if_neg h1]
    by_cases h2 : (runCount nodesMarker content).2 = true
    · rw [if_pos h2, stAfterNodes_groups]
    · rw [if_neg h2, stAfterElems_groups, stAfterNodes_groups]

theorem extract_of_phys_raised {content : Chars}
    (h : (runPhysG content []).2 = true) :
    extractMeshStatistics content = ⟨(runPhysG content []).1, 0, 0⟩ := by
  unfold extractMeshStatistics
  rw [if_pos h]

theorem searchPhys_c4 {pre cl post : Chars} {rs : List PRecord}
    (hpre : ∀ c ∈ pre, c ≠ '$') (hcl : pyIsDigit cl = true)
    (hrs : ∀ r ∈ rs, wfRecord r) :
    searchPhys (c4content pre cl rs post) = some (cl ++ '\n' :: joinRecs rs) := by
  unfold c4content
  rw [searchPhys_skip _ hpre]
  apply searchPhys_marker
  · intro c hc
    rcases List.mem_append.mp hc with h1 | h2
    · exact digits_ne_dollar hcl c h1
    · rcases List.mem_cons.mp h2 with rfl | h3
      · decide
      · exact joinRecs_no_dollar hrs c h3
  · rcases List.exists_cons_of_ne_nil (pyIsDigit_ne_nil hcl) with ⟨c0, cl2, hcl0⟩
    have hclc : pyIsDigit (c0 :: cl2) = true := hcl0 ▸ hcl
    exact ⟨c0, cl2 ++ '\n' :: joinRecs rs, by rw [hcl0]; simp,
      digits_no_space hclc c0 (by simp)⟩

/-- C4: an artifact whose `PhysicalNames` section has a digit count line and
well-formed single-token records keyed by distinct names yields exactly one
mapping entry per record, reading `min(count, available)` records, with no
exception in that stage. -/
theorem claim4_physicalNames_records (pre cl post : Chars) (rs : List PRecord)
    (hpre : ∀ c ∈ pre, c ≠ '$') (hcl : pyIsDigit cl = true)
    (hrs : ∀ r ∈ rs, wfRecord r)
    (hnd : (rs.map (fun r => r.name)).Nodup) :
    (extractMeshStatistics (c4content pre cl rs post)).physical_groups
        = (rs.take (digitsToNat cl)).map entryOf
      ∧ physRaised (c4content pre cl rs post) = false := by
  have hrun : runPhysG (c4content pre cl rs post) [] =
      ((rs.take (digitsToNat cl)).map entryOf, false) := by
    rw [runPhysG_of_search_some [] (searchPhys_c4 hpre hcl hrs)]
    exact physStage_section hcl hrs hnd
  constructor
  · rw [extract_groups, hrun]
  · unfold physRaised
    rw [hrun]

theorem spacedNameLine_shape (ds ts tok1 rest2 : Chars) :
    spacedNameLine ds ts tok1 rest2 =
      ds ++ ' ' :: (ts ++ ' ' :: (('"' :: tok1) ++ ' ' :: (rest2 ++ ['"']))) := by
  simp [spacedNameLine]

theorem spacedNameLine_snoc (ds ts tok1 rest2 : Chars) :
    spacedNameLine ds ts tok1 rest2 =
      (ds ++ ' ' :: (ts ++ ' ' :: ('"' :: (tok1 ++ ' ' :: rest2)))) ++ ['"'] := by
  simp [spacedNameLine]

theorem spacedNameLine_split {ds ts tok1 : Chars} (rest2 : Chars)
    (hds : pyIsDigit ds = true) (hts : pyIsDigit ts = true)
    (htokc : ∀ c ∈ tok1, isSpace c = false) :
    pySplitWs (spacedNameLine ds ts tok1 rest2) =
      ds :: ts :: ('"' :: tok1) :: pySplitWs (rest2 ++ ['"']) := by
  rw [spacedNameLine_shape]
  rw [pySplitWs_cons_token _ (pyIsDigit_ne_nil hds) (digits_no_space hds)]
  rw [pySplitWs_cons_token _ (pyIsDigit_ne_nil hts) (digits_no_space hts)]
  rw [pySplitWs_cons_token _ (by simp)]
  intro c hc
  rcases List.mem_cons.mp hc with rfl | hc2
  · decide
  · exact htokc c hc2

theorem spacedNameLine_no_nl {ds ts tok1 rest2 : Chars}
    (hds : pyIsDigit ds = true) (hts : pyIsDigit ts = true)
    (htokc : ∀ c ∈ tok1, isSpace c = false)
    (hrest : ∀ c ∈ rest2, c ≠ '\n') : '\n' ∉ spacedNameLine ds ts tok1 rest2 := by
  intro hc
  rw [spacedNameLine_shape] at hc
  rcases List.mem_append.mp hc with h1 | h2
  · exact absurd (pyIsDigit_mem hds '\n' h1) (by decide)
  · rcases List.mem_cons.mp h2 with heq | h3
    · exact absurd heq (by decide)
    · rcases List.mem_append.mp h3 with h4 | h5
      · exact absurd (pyIsDigit_mem hts '\n' h4) (by decide)
      · rcases List.mem_cons.mp h5 with heq | h6
        · exact absurd heq (by decide)
        · rcases List.mem_append.mp h6 with h7 | h8
          · rcases List.mem_cons.mp h7 with heq | h9
            · exact absurd heq (by decide)
            · exact absurd (htokc '\n' h9) (by decide)
          · rcases List.mem_cons.mp h8 with heq | h9
            · exact absurd heq (by decide)
            · rcases List.mem_append.mp h9 with h10 | h11
              · exact hrest '\n' h10 rfl
              · exact absurd (List.mem_singleton.mp h11) (by decide)

theorem spacedNameLine_no_dollar {ds ts tok1 rest2 : Chars}
    (hds : pyIsDigit ds = true) (hts : pyIsDigit ts = true)
    (htokd : ∀ c ∈ tok1, c ≠ '$')
    (hrest : ∀ c ∈ rest2, c ≠ '$') :
    ∀ c ∈ spacedNameLine ds ts tok1 rest2, c ≠ '$' := by
  intro c hc
  rw [spacedNameLine_shape] at hc
  rcases List.mem_append.mp hc with h1 | h2
  · exact digits_ne_dollar hds c h1
  · rcases List.mem_cons.mp h2 with rfl | h3
    · decide
    · rcases List.mem_append.mp h3 with h4 | h5
      · exact digits_ne_dollar hts c h4
      · rcases List.mem_cons.mp h5 with rfl | h6
        · decide
        · rcases List.mem_append.mp h6 with h7 | h8
          · rcases List.mem_cons.mp h7 with rfl | h9
            · decide
            · exact htokd c h9
          · rcases List.mem_cons.mp h8 with rfl | h9
            · decide
            · rcases List.mem_append.mp h9 with h10 | h11
              · exact hrest c h10
              · rw [List.mem_singleton.mp h11]; decide

theorem processRecord_spaced {ds ts tok1 : Chars} (rest2 : Chars)
    (hds : pyIsDigit ds = true) (hts : pyIsDigit ts = true)
    (htokc : ∀ c ∈ tok1, isSpace c = false ∧ c ≠ '"') :
    processRecord [] (spacedNameLine ds ts tok1 rest2) =
      some [(tok1, ⟨(digitsToNat ds : Int), (digitsToNat ts : Int)⟩)] := by
  unfold processRecord
  rw [spacedNameLine_split rest2 hds hts (fun c hc => (htokc c hc).1)]
  rw [if_pos (by simp)]
  have h0 : ((ds :: ts :: ('"' :: tok1) :: pySplitWs (rest2 ++ ['"'])).getD 0 [])
      = ds := rfl
  have h1 : ((ds :: ts :: ('"' :: tok1) :: pySplitWs (rest2 ++ ['"'])).getD 1 [])
      = ts := rfl
  have h2 : ((ds :: ts :: ('"' :: tok1) :: pySplitWs (rest2 ++ ['"'])).getD 2 [])
      = '"' :: tok1 := rfl
  rw [h0, h1, h2, pyInt_digits hds, pyInt_digits hts,
    pyStripQuotes_open (fun c hc => (htokc c hc).2)]
  simp [updateAssoc]

/-- C10: a record whose quoted name has internal whitespace is keyed by only
the first whitespace-separated token of the name, quotes stripped. -/
theorem claim10_name_truncated (ds ts tok1 rest2 post : Chars)
    (hds : pyIsDigit ds = true) (hts : pyIsDigit ts = true)
    (htokc : ∀ c ∈ tok1, isSpace c = false ∧ c ≠ '"' ∧ c ≠ '$')
    (hrest : ∀ c ∈ rest2, c ≠ '\n' ∧ c ≠ '$') :
    (extractMeshStatistics (c10content ds ts tok1 rest2 post)).physical_groups
        = [(tok1, ⟨(digitsToNat ds : Int), (digitsToNat ts : Int)⟩)]
      ∧ physRaised (c10content ds ts tok1 rest2 post) = false := by
  have hsearch : searchPhys (c10content ds ts tok1 rest2 post)
      = some ('1' :: '\n' :: (spacedNameLine ds ts tok1 rest2 ++ ['\n'])) := by
    unfold c10content
    apply searchPhys_marker
    · intro c hc
      rcases List.mem_cons.mp hc with rfl | h2
      · decide
      · rcases List.mem_cons.mp h2 with rfl | h3
        · decide
        · rcases List.mem_append.mp h3 with h4 | h5
          · exact spacedNameLine_no_dollar hds hts (fun c hc => (htokc c hc).2.2)
              (fun c hc => (hrest c hc).2) c h4
          · rw [List.mem_singleton.mp h5]; decide
    · exact ⟨'1', '\n' :: (spacedNameLine ds ts tok1 rest2 ++ ['\n']), rfl, by decide⟩
  have hnl : '\n' ∉ spacedNameLine ds ts tok1 rest2 :=
    spacedNameLine_no_nl hds hts (fun c hc => (htokc c hc).1)
      (fun c hc => (hrest c hc).1)
  have hstage : physStage ('1' :: '\n' :: (spacedNameLine ds ts tok1 rest2 ++ ['\n']))
      [] = ([(tok1, ⟨(digitsToNat ds : Int), (digitsToNat ts : Int)⟩)], false) := by
    unfold physStage
    have hstrip : pyStrip ('1' :: '\n' :: (spacedNameLine ds ts tok1 rest2 ++ ['\n']))
        = '1' :: '\n' :: spacedNameLine ds ts tok1 rest2 := by
      rw [show ('1' :: '\n' :: (spacedNameLine ds ts tok1 rest2 ++ ['\n']) : Chars)
          = ('1' :: '\n' :: spacedNameLine ds ts tok1 rest2) ++ ['\n'] by simp]
      apply pyStrip_eq_of_ends
      · rw [List.dropWhile_cons, if_neg (by decide)]
      · rw [spacedNameLine_snoc]
        rw [show ('1' :: '\n' ::
            ((ds ++ ' ' :: (ts ++ ' ' :: ('"' :: (tok1 ++ ' ' :: rest2)))) ++ ['"'])
            : Chars)
            = ('1' :: '\n' ::
              (ds ++ ' ' :: (ts ++ ' ' :: ('"' :: (tok1 ++ ' ' :: rest2))))) ++ ['"']
          by simp]
        rw [show (((('1' :: '\n' ::
            (ds ++ ' ' :: (ts ++ ' ' :: ('"' :: (tok1 ++ ' ' :: rest2)))))) ++ ['"'])
            : Chars).reverse
            = '"' :: ('1' :: '\n' ::
              (ds ++ ' ' :: (ts ++ ' ' :: ('"' :: (tok1 ++ ' ' :: rest2))))).reverse
          by simp]
        rw [List.dropWhile_cons, if_neg (by decide)]
    rw [hstrip]
    rw [show ('1' :: '\n' :: spacedNameLine ds ts tok1 rest2 : Chars)
        = ['1'] ++ '\n' :: spacedNameLine ds ts tok1 rest2 by simp]
    rw [pySplitNl_cons_line _ (by decide), pySplitNl_single hnl]
    show (if (processRecord [] (spacedNameLine ds ts tok1 rest2)).isSome then
        physLoop []
          ((processRecord [] (spacedNameLine ds ts tok1 rest2)).getD [])
       else ([], true)) =
      ([(tok1, ⟨(digitsToNat ds : Int), (digitsToNat ts : Int)⟩)], false)
    rw [processRecord_spaced rest2 hds hts (fun c hc => ⟨(htokc c hc).1,
      (htokc c hc).2.1⟩)]
    simp [physLoop]
  have hrun : runPhysG (c10content ds ts tok1 rest2 post) [] =
      ([(tok1, ⟨(digitsToNat ds : Int), (digitsToNat ts : Int)⟩)], false) := by
    rw [runPhysG_of_search_some [] hsearch, hstage]
  exact ⟨by rw [extract_groups, hrun], by unfold physRaised; rw [hrun]⟩

theorem stAfterNodes_vertices (st : MeshStatistics) (rn : Option Int × Bool) :
    (stAfterNodes st rn).num_vertices = rn.1.getD st.num_vertices := by
  cases h : rn.1 <;> simp [stAfterNodes, h]

theorem stAfterNodes_elements (st : MeshStatistics) (rn : Option Int × Bool) :
    (stAfterNodes st rn).num_elements = st.num_elements := by
  cases h : rn.1 <;> simp [stAfterNodes, h]

theorem stAfterElems_vertices (st : MeshStatistics) (re2 : Option Int × Bool) :
    (stAfterElems st re2).num_vertices = st.num_vertices := by
  cases h : re2.1 <;> simp [stAfterElems, h]

theorem stAfterElems_elements (st : MeshStatistics) (re2 : Option Int × Bool) :
    (stAfterElems st re2).num_elements = re2.1.getD st.num_elements := by
  cases h : re2.1 <;> simp [stAfterElems, h]

theorem searchLine_c5_nodes {pre mid post : Chars} {nc : Char} {nh2 : Chars}
    (eh : Chars) (hpre : ∀ c ∈ pre, c ≠ '$') (hnc : isSpace nc = false)
    (hnl : '\n' ∉ (nc :: nh2)) :
    searchLine nodesMarker (c5content pre (nc :: nh2) mid eh post)
      = some (nc :: nh2) := by
  unfold c5content
  rw [show (nodesMarker : Chars) = '$' :: nodesTail from rfl]
  rw [searchLine_skip _ hpre]
  exact searchLine_marker _ hnl ⟨nc, nh2, rfl, hnc⟩

theorem searchLine_c5_elems {pre mid post : Chars} {nc ec : Char} {nh2 eh2 : Chars}
    (hpre : ∀ c ∈ pre, c ≠ '$') (hnh : ∀ c ∈ (nc :: nh2), c ≠ '$')
    (hmid : ∀ c ∈ mid, c ≠ '$') (hec : isSpace ec = false)
    (hel : '\n' ∉ (ec :: eh2)) :
    searchLine elemsMarker (c5content pre (nc :: nh2) mid (ec :: eh2) post)
      = some (ec :: eh2) := by
  have hfail : lineAt ('$' :: elemsTail)
      ('$' :: (nodesTail ++ '\n' :: ((nc :: nh2) ++ '\n' ::
        (mid ++ (('$' :: elemsTail) ++ '\n' :: ((ec :: eh2) ++ '\n' :: post))))))
      = none := by
    unfold lineAt
    rw [show startsWith ('$' :: elemsTail)
        ('$' :: (nodesTail ++ '\n' :: ((nc :: nh2) ++ '\n' ::
          (mid ++ (('$' :: elemsTail) ++ '\n' :: ((ec :: eh2) ++ '\n' :: post))))))
      = false from rfl]
    simp
  have main : searchLine ('$' :: elemsTail)
      (pre ++ (('$' :: nodesTail) ++ '\n' :: ((nc :: nh2) ++ '\n' ::
        (mid ++ (('$' :: elemsTail) ++ '\n' :: ((ec :: eh2) ++ '\n' :: post))))))
      = some (ec :: eh2) := by
    rw [searchLine_skip _ hpre]
    rw [show (('$' :: nodesTail) ++ '\n' :: ((nc :: nh2) ++ '\n' ::
        (mid ++ (('$' :: elemsTail) ++ '\n' :: ((ec :: eh2) ++ '\n' :: post)))) : Chars)
      = '$' :: (nodesTail ++ '\n' :: ((nc :: nh2) ++ '\n' ::
        (mid ++ (('$' :: elemsTail) ++ '\n' :: ((ec :: eh2) ++ '\n' :: post)))))
      from rfl]
    rw [searchLine_step hfail]
    rw [show (nodesTail ++ '\n' :: ((nc :: nh2) ++ '\n' ::
        (mid ++ (('$' :: elemsTail) ++ '\n' :: ((ec :: eh2) ++ '\n' :: post)))) : Chars)
      = (nodesTail ++ '\n' :: ((nc :: nh2) ++ '\n' :: mid))
        ++ (('$' :: elemsTail) ++ '\n' :: ((ec :: eh2) ++ '\n' :: post)) by simp]
    rw [searchLine_skip _ (by
      intro c hc
      rcases List.mem_append.mp hc with h1 | h2
      · exact (by decide : ∀ c ∈ nodesTail, c ≠ '$') c h1
      · rcases List.mem_cons.mp h2 with rfl | h3
        · decide
        · rcases List.mem_append.mp h3 with h4 | h5
          · exact hnh c h4
          · rcases List.mem_cons.mp h5 with rfl | h6
            · decide
            · exact hmid c h6)]
    exact searchLine_marker _ hel ⟨ec, eh2, rfl, hec⟩
  exact main

/-- C5 (amended): the vertex count is taken from the 4th field of the
`Nodes` header and, provided the `Nodes` stage raised no failure, the
element count from the 4th field of the `Elements` header; a failure in the
`Nodes` stage leaves the element count 0; a text with no `Nodes` section
yields `num_vertices = 0` without raising. -/
theorem claim5_header_fields :
    (∀ (pre mid post nh2 eh2 : Chars) (nc ec : Char),
      containsSub (c5content pre (nc :: nh2) mid (ec :: eh2) post) physMarker
          = false →
      (∀ c ∈ pre, c ≠ '$') →
      isSpace nc = false → '\n' ∉ (nc :: nh2) → (∀ c ∈ (nc :: nh2), c ≠ '$') →
      (∀ c ∈ mid, c ≠ '$') →
      isSpace ec = false → '\n' ∉ (ec :: eh2) →
      ((extractMeshStatistics
            (c5content pre (nc :: nh2) mid (ec :: eh2) post)).num_vertices
          = (headerCount (nc :: nh2)).1.getD 0
        ∧ ((headerCount (nc :: nh2)).2 = false →
            (extractMeshStatistics
              (c5content pre (nc :: nh2) mid (ec :: eh2) post)).num_elements
              = (headerCount (ec :: eh2)).1.getD 0)
        ∧ ((headerCount (nc :: nh2)).2 = true →
            (extractMeshStatistics
              (c5content pre (nc :: nh2) mid (ec :: eh2) post)).num_elements = 0)))
    ∧ (∀ content : Chars, containsSub content nodesMarker = false →
        (extractMeshStatistics content).num_vertices = 0) := by
  constructor
  · intro pre mid post nh2 eh2 nc ec hphys hpre hnc hnnl hnhd hmid hec henl
    have hrp : runPhysG (c5content pre (nc :: nh2) mid (ec :: eh2) post) [] =
        ([], false) :=
      runPhysG_of_search_none [] (searchPhys_none_of_no_marker hphys)
    have hrn : runCount nodesMarker (c5content pre (nc :: nh2) mid (ec :: eh2) post)
        = headerCount (nc :: nh2) :=
      runCount_of_search_some (searchLine_c5_nodes _ hpre hnc hnnl)
    have hre : runCount elemsMarker (c5content pre (nc :: nh2) mid (ec :: eh2) post)
        = headerCount (ec :: eh2) :=
      runCount_of_search_some (searchLine_c5_elems hpre hnhd hmid hec henl)
    unfold extractMeshStatistics
    rw [hrp, hrn, hre]
    rcases hhc : headerCount (nc :: nh2) with ⟨o, e⟩
    cases e with
    | true =>
      rw [if_neg (by simp), if_pos rfl]
      refine ⟨?_, ?_, ?_⟩
      · rw [stAfterNodes_vertices]
      · intro hfalse; exact absurd hfalse (by simp)
      · intro _; rw [stAfterNodes_elements]
    | false =>
      rw [if_neg (by simp), if_neg (by simp)]
      refine ⟨?_, ?_, ?_⟩
      · rw [stAfterElems_vertices, stAfterNodes_vertices]
      · intro _
        rw [stAfterElems_elements, stAfterNodes_elements]
      · intro htrue; exact absurd htrue (by simp)
  · intro content h
    have hrn : runCount nodesMarker content = (none, false) :=
      runCount_of_search_none (searchLine_none_of_no_marker h)
    unfold extractMeshStatistics
    by_cases h1 : (runPhysG content []).2 = true
    · rw [if_pos h1]
    · rw [if_neg h1, hrn]
      rw [if_neg (by simp)]
      rw [stAfterElems_vertices, stAfterNodes_vertices]
      rfl

theorem runCount_nonneg {m content : Chars} (h : '-' ∉ content) :
    ∀ v : Int, (runCount m content).1 = some v → 0 ≤ v := by
  intro v hv
  unfold runCount at hv
  cases hs : searchLine m content with
  | none => rw [hs] at hv; exact absurd hv (by simp)
  | some g =>
    rw [hs] at hv
    replace hv : (headerCount g).1 = some v := hv
    unfold headerCount at hv
    by_cases h4 : 4 ≤ (pySplitWs (pyStrip g)).length
    · rw [if_pos h4] at hv
      cases hp : pyInt ((pySplitWs (pyStrip g)).getD 3 []) with
      | none =>
        rw [hp] at hv
        have hv2 : ((none : Option Int), true).1 = some v := hv
        exact absurd hv2 (by simp)
      | some w =>
        rw [hp] at hv
        have hv2 : ((some w : Option Int), false).1 = some v := hv
        have hw : w = v := by simpa using hv2
        have hfield : '-' ∉ (pySplitWs (pyStrip g)).getD 3 [] := by
          intro hmem
          cases hgd : (pySplitWs (pyStrip g)).get? 3 with
          | none =>
            rw [List.getD_eq_get?, hgd] at hmem
            simp at hmem
          | some piece =>
            have heq : (pySplitWs (pyStrip g)).getD 3 [] = piece := by
              rw [List.getD_eq_get?, hgd]; rfl
            rw [heq] at hmem
            have hpmem : piece ∈ pySplitWs (pyStrip g) := List.get?_mem hgd
            have h1 : '-' ∈ pyStrip g := pySplitWs_subset hpmem '-' hmem
            have h2 : '-' ∈ g := pyStrip_subset '-' h1
            exact h (searchLine_subset hs '-' h2)
        rw [← hw]
        exact pyInt_nonneg hfield hp
    · rw [if_neg h4] at hv
      have hv2 : ((none : Option Int), false).1 = some v := hv
      exact absurd hv2 (by simp)

/-- C8 (amended): for every artifact text not containing the character `-`,
the extracted vertex and element counts are non-negative (the source passes
header fields through Python `int()`, which accepts signed numerals). -/
theorem claim8_counts_nonneg (content : Chars) (h : '-' ∉ content) :
    0 ≤ (extractMeshStatistics content).num_vertices ∧
    0 ≤ (extractMeshStatistics content).num_elements := by
  unfold extractMeshStatistics
  by_cases h1 : (runPhysG content []).2 = true
  · rw [if_pos h1]
    exact ⟨le_rfl, le_rfl⟩
  · rw [if_neg h1]
    by_cases h2 : (runCount nodesMarker content).2 = true
    · rw [if_pos h2]
      constructor
      · rw [stAfterNodes_vertices]
        cases ho : (runCount nodesMarker content).1 with
        | none => simp
        | some v => simpa using runCount_nonneg h v ho
      · rw [stAfterNodes_elements]
    · rw [if_neg h2]
      constructor
      · rw [stAfterElems_vertices, stAfterNodes_vertices]
        cases ho : (runCount nodesMarker content).1 with
        | none => simp
        | some v => simpa using runCount_nonneg h v ho
      · rw [stAfterElems_elements, stAfterNodes_elements]
        cases ho : (runCount elemsMarker content).1 with
        | none => simp
        | some w => simpa using runCount_nonneg h w ho

theorem validateCreate_nonpos (ml radius : ℚ) (layers : List ℚ)
    (subdivisions : Option (List Nat)) (layer_names : Option (List (Option String)))
    (h : ml ≤ 0 ∨ radius ≤ 0 ∨ ∃ t ∈ layers, t ≤ 0) :
    ∃ msg, validateCreate ml radius layers subdivisions layer_names
        = Except.error msg ∧
      (msg = "mesh length must be positive" ∨ msg = "radius must be positive" ∨
        msg = "All layer thicknesses must be positive") := by
  unfold validateCreate
  by_cases h1 : ml ≤ 0
  · rw [if_pos h1]
    exact ⟨_, rfl, Or.inl rfl⟩
  · rw [if_neg h1]
    by_cases h2 : radius ≤ 0
    · rw [if_pos h2]
      exact ⟨_, rfl, Or.inr (Or.inl rfl)⟩
    · rw [if_neg h2]
      have h3 : layers.any (fun v => decide (v ≤ 0)) = true := by
        rcases h with h | h | ⟨t, ht, htle⟩
        · exact absurd h h1
        · exact absurd h h2
        · rw [List.any_eq_true]
          exact ⟨t, ht, by simpa using htle⟩
      rw [if_pos h3]
      exact ⟨_, rfl, Or.inr (Or.inr rfl)⟩

theorem createMeshValidated_of_error {ml radius : ℚ} {layers : List ℚ}
    {subdivisions : Option (List Nat)} {layer_names : Option (List (Option String))}
    {e : String}
    (h : validateCreate ml radius layers subdivisions layer_names = Except.error e) :
    createMeshValidated ml radius layers subdivisions layer_names
      = some ⟨false, none, some e⟩ := by
  unfold createMeshValidated
  rw [h]

theorem createMeshValidated_of_ok {ml radius : ℚ} {layers : List ℚ}
    {subdivisions : Option (List Nat)} {layer_names : Option (List (Option String))}
    {subs : List Nat}
    (h : validateCreate ml radius layers subdivisions layer_names = Except.ok subs) :
    createMeshValidated ml radius layers subdivisions layer_names = none := by
  unfold createMeshValidated
  rw [h]

theorem validateCreate_positive_checks (ml radius : ℚ) (layers : List ℚ)
    (h1 : 0 < ml) (h2 : 0 < radius) (h3 : ∀ t ∈ layers, 0 < t) :
    validateCreate ml radius layers = fun subdivisions layer_names =>
      (match subdivisions with
      | none =>
        match layer_names with
        | none => Except.ok (List.replicate layers.length 1)
        | some ns =>
          if ns.length ≠ layers.length then
            Except.error (mismatchMsg ns.length "layer names" layers.length "layers")
          else Except.ok (List.replicate layers.length 1)
      | some subs =>
        if subs.length ≠ layers.length then
          Except.error (mismatchMsg subs.length "subdivisions" layers.length "layers")
        else
          match layer_names with
          | none => Except.ok subs
          | some ns =>
            if ns.length ≠ layers.length then
              Except.error (mismatchMsg ns.length "layer names" layers.length "layers")
            else Except.ok subs) := by
  funext subdivisions layer_names
  unfold validateCreate
  rw [if_neg (not_le.mpr h1), if_neg (not_le.mpr h2), if_neg]
  rw [List.any_eq_true]
  rintro ⟨t, ht, htle⟩
  exact absurd (by simpa using htle) (not_le.mpr (h3 t ht))

theorem validateCreate_names_mismatch {ml radius : ℚ} {layers : List ℚ}
    {subs : List Nat} {ns : List (Option String)}
    (h1 : 0 < ml) (h2 : 0 < radius) (h3 : ∀ t ∈ layers, 0 < t)
    (hsub : subs.length = layers.length) (hn : ns.length ≠ layers.length) :
    validateCreate ml radius layers (some subs) (some ns)
      = Except.error (mismatchMsg ns.length "layer names" layers.length "layers") := by
  rw [validateCreate_positive_checks ml radius layers h1 h2 h3]
  show (if subs.length ≠ layers.length then
      Except.error (mismatchMsg subs.length "subdivisions" layers.length "layers")
    else
      if ns.length ≠ layers.length then
        Except.error (mismatchMsg ns.length "layer names" layers.length "layers")
      else Except.ok subs)
    = Except.error (mismatchMsg ns.length "layer names" layers.length "layers")
  rw [if_neg (by simp [hsub]), if_pos hn]

theorem validateCreate_subs_mismatch {ml radius : ℚ} {layers : List ℚ}
    {subs : List Nat} {layer_names : Option (List (Option String))}
    (h1 : 0 < ml) (h2 : 0 < radius) (h3 : ∀ t ∈ layers, 0 < t)
    (hsub : subs.length ≠ layers.length) :
    validateCreate ml radius layers (some subs) layer_names
      = Except.error (mismatchMsg subs.length "subdivisions" layers.length "layers")
    := by
  rw [validateCreate_positive_checks ml radius layers h1 h2 h3]
  show (if subs.length ≠ layers.length then
      Except.error (mismatchMsg subs.length "subdivisions" layers.length "layers")
    else
      match layer_names with
      | none => Except.ok subs
      | some ns =>
        if ns.length ≠ layers.length then
          Except.error (mismatchMsg ns.length "layer names" layers.length "layers")
        else Except.ok subs)
    = Except.error (mismatchMsg subs.length "subdivisions" layers.length "layers")
  rw [if_pos hsub]

/-- C6: non-positive mesh length, radius or layer thickness makes
`create_mesh` fail during validation with a message naming the violated
invariant, with `success = False` and no geometry output. -/
theorem claim6_config_error (ml radius : ℚ) (layers : List ℚ)
    (subdivisions : Option (List Nat)) (layer_names : Option (List (Option String)))
    (h : ml ≤ 0 ∨ radius ≤ 0 ∨ ∃ t ∈ layers, t ≤ 0) :
    ∃ msg, createMeshValidated ml radius layers subdivisions layer_names
        = some ⟨false, none, some msg⟩ ∧
      (msg = "mesh length must be positive" ∨ msg = "radius must be positive" ∨
        msg = "All layer thicknesses must be positive") := by
  rcases validateCreate_nonpos ml radius layers subdivisions layer_names h with
    ⟨msg, hmsg, hmem⟩
  exact ⟨msg, createMeshValidated_of_error hmsg, hmem⟩

/-- Witness for C6 at `ml = 0`. -/
theorem claim6_witness :
    ∃ msg, createMeshValidated 0 1 [1] none none = some ⟨false, none, some msg⟩ ∧
      (msg = "mesh length must be positive" ∨ msg = "radius must be positive" ∨
        msg = "All layer thicknesses must be positive") :=
  claim6_config_error 0 1 [1] none none (Or.inl (by norm_num))

/-- C7 counterexample: a zero-layer stack, a subdivision count below 1, and
duplicate layer names all pass `create_mesh` validation (no configuration
error), contradicting the claim that the builder re-asserts every stack
invariant. -/
theorem claim7_counterexample :
    createMeshValidated 1 1 [] none none = none ∧
    createMeshValidated 1 1 [1] (some [0]) none = none ∧
    createMeshValidated 1 1 [1, 2] (some [1, 1]) (some [some "A", some "A"])
      = none := by
  refine ⟨rfl, rfl, rfl⟩

/-- C7 (amended): the builder re-asserts only positivity of `ml`, `radius`
and the layer thicknesses and the length agreement of `subdivisions` and
`layer_names` with `layers`; zero layers, subdivision counts below 1 and
duplicate names are accepted. -/
theorem claim7_partial_validation :
    (∀ ml radius : ℚ, 0 < ml → 0 < radius →
      validateCreate ml radius [] none none = Except.ok []) ∧
    validateCreate 1 1 [1] (some [0]) none = Except.ok [0] ∧
    validateCreate 1 1 [1, 2] (some [1, 1]) (some [some "A", some "A"])
      = Except.ok [1, 1] ∧
    (∀ (ml radius : ℚ) (layers : List ℚ) (subdivisions : Option (List Nat))
      (layer_names : Option (List (Option String))),
      (ml ≤ 0 ∨ radius ≤ 0 ∨ ∃ t ∈ layers, t ≤ 0) →
      ∃ msg, createMeshValidated ml radius layers subdivisions layer_names
        = some ⟨false, none, some msg⟩) ∧
    (∀ (ml radius : ℚ) (layers : List ℚ) (subs : List Nat)
      (layer_names : Option (List (Option String))),
      0 < ml → 0 < radius → (∀ t ∈ layers, 0 < t) →
      subs.length ≠ layers.length →
      createMeshValidated ml radius layers (some subs) layer_names =
        some ⟨false, none, some (mismatchMsg subs.length "subdivisions"
          layers.length "layers")⟩) := by
  refine ⟨?_, rfl, rfl, ?_, ?_⟩
  · intro ml radius h1 h2
    rw [validateCreate_positive_checks ml radius [] h1 h2 (by simp)]
    rfl
  · intro ml radius layers subdivisions layer_names h
    rcases validateCreate_nonpos ml radius layers subdivisions layer_names h with
      ⟨msg, hmsg, _⟩
    exact ⟨msg, createMeshValidated_of_error hmsg⟩
  · intro ml radius layers subs layer_names h1 h2 h3 hsub
    exact createMeshValidated_of_error (validateCreate_subs_mismatch h1 h2 h3 hsub)

/-- Witness for C7's amended theorem at concrete inputs. -/
theorem claim7_witness :
    validateCreate 2 3 [] none none = Except.ok [] ∧
    createMeshValidated 1 1 [1] (some [2, 3]) none =
      some ⟨false, none, some (mismatchMsg 2 "subdivisions" 1 "layers")⟩ :=
  ⟨claim7_partial_validation.1 2 3 (by norm_num) (by norm_num),
    claim7_partial_validation.2.2.2.2 1 1 [1] [2, 3] none (by norm_num) (by norm_num)
      (by norm_num) (by norm_num)⟩

theorem applyOp_radius (st : BuilderState) (op : AddOp) :
    (applyOp st op).radius = st.radius := by
  cases op <;> rfl

theorem applyOp_ml (st : BuilderState) (op : AddOp) :
    (applyOp st op).ml = st.ml := by
  cases op <;> rfl

theorem applyOp_layers (st : BuilderState) (op : AddOp) :
    (applyOp st op).layers = st.layers ++ [opThickness op] := by
  cases op <;> rfl

theorem applyOp_subs_length (st : BuilderState) (op : AddOp) :
    (applyOp st op).subdivisions.length = st.subdivisions.length + 1 := by
  cases op <;> simp [applyOp, addNamed, addUnnamed]

theorem applyOps_radius (st : BuilderState) (ops : List AddOp) :
    (applyOps st ops).radius = st.radius := by
  induction ops generalizing st with
  | nil => rfl
  | cons op ops ih =>
    rw [show applyOps st (op :: ops) = applyOps (applyOp st op) ops from rfl,
      ih, applyOp_radius]

theorem applyOps_ml (st : BuilderState) (ops : List AddOp) :
    (applyOps st ops).ml = st.ml := by
  induction ops generalizing st with
  | nil => rfl
  | cons op ops ih =>
    rw [show applyOps st (op :: ops) = applyOps (applyOp st op) ops from rfl,
      ih, applyOp_ml]

theorem applyOps_layers (st : BuilderState) (ops : List AddOp) :
    (applyOps st ops).layers = st.layers ++ ops.map opThickness := by
  induction ops generalizing st with
  | nil => simp [applyOps]
  | cons op ops ih =>
    rw [show applyOps st (op :: ops) = applyOps (applyOp st op) ops from rfl,
      ih, applyOp_layers]
    simp

theorem applyOps_subs_length (st : BuilderState) (ops : List AddOp) :
    (applyOps st ops).subdivisions.length = st.subdivisions.length + ops.length := by
  induction ops generalizing st with
  | nil => rfl
  | cons op ops ih =>
    rw [show applyOps st (op :: ops) = applyOps (applyOp st op) ops from rfl,
      ih, applyOp_subs_length]
    simp
    omega

theorem applyOp_names_le (st : BuilderState) (op : AddOp)
    (h : st.layer_names.length ≤ st.layers.length) :
    (applyOp st op).layer_names.length ≤ (applyOp st op).layers.length := by
  cases op with
  | unnamed t k =>
    show st.layer_names.length ≤ (st.layers ++ [t]).length
    simp
    omega
  | named n t k =>
    show ((st.layer_names ++
        List.replicate (st.layers.length - st.layer_names.length) none)
          ++ [some n]).length ≤ (st.layers ++ [t]).length
    simp
    omega

theorem applyOps_names_le (st : BuilderState) (ops : List AddOp)
    (h : st.layer_names.length ≤ st.layers.length) :
    (applyOps st ops).layer_names.length ≤ (applyOps st ops).layers.length := by
  induction ops generalizing st with
  | nil => exact h
  | cons op ops ih =>
    rw [show applyOps st (op :: ops) = applyOps (applyOp st op) ops from rfl]
    exact ih _ (applyOp_names_le st op h)

theorem applyOp_anyNames (st : BuilderState) (op : AddOp)
    (h : anyNames st.layer_names = true) :
    anyNames (applyOp st op).layer_names = true := by
  cases op with
  | unnamed t k => exact h
  | named n t k =>
    show anyNames ((st.layer_names ++
        List.replicate (st.layers.length - st.layer_names.length) none)
          ++ [some n]) = true
    unfold anyNames
    simp

theorem addNamed_anyNames (st : BuilderState) (n : String) (t : ℚ) (k : Nat) :
    anyNames (applyOp st (AddOp.named n t k)).layer_names = true := by
  show anyNames ((st.layer_names ++
      List.replicate (st.layers.length - st.layer_names.length) none)
        ++ [some n]) = true
  unfold anyNames
  simp

theorem applyOps_anyNames (st : BuilderState) (ops : List AddOp)
    (h : anyNames st.layer_names = true ∨ ∃ n t k, AddOp.named n t k ∈ ops) :
    anyNames (applyOps st ops).layer_names = true := by
  induction ops generalizing st with
  | nil =>
    rcases h with h | ⟨n, t, k, hmem⟩
    · exact h
    · exact absurd hmem (by simp)
  | cons op ops ih =>
    rw [show applyOps st (op :: ops) = applyOps (applyOp st op) ops from rfl]
    rcases h with h | ⟨n, t, k, hmem⟩
    · exact ih _ (Or.inl (applyOp_anyNames st op h))
    · rcases List.mem_cons.mp hmem with rfl | hmem2
      · exact ih _ (Or.inl (addNamed_anyNames st n t k))
      · exact ih _ (Or.inr ⟨n, t, k, hmem2⟩)

/-- C9 counterexample: `add_layer("A", ...)`, then an unnamed layer, then
`add_layer("B", ...)` — a named layer precedes an unnamed one, yet the later
named layer pads the names list back to full length and `build()` passes
validation instead of returning a length-mismatch failure. -/
theorem claim9_counterexample :
    builderBuild c9state = Except.ok none ∧
    c9state.layer_names.length = c9state.layers.length := by
  refine ⟨rfl, rfl⟩

/-- C9 (amended): when at least one named layer is added and the last-added
layer is unnamed (radius, mesh size and all thicknesses positive), the
names list stays shorter than the layers list and `build()` returns the
length-mismatch failure dictionary. -/
theorem claim9_names_shorter (r m t0 : ℚ) (s0 : Nat) (ops : List AddOp)
    (hr : 0 < r) (hm : 0 < m)
    (hnamed : ∃ n t k, AddOp.named n t k ∈ ops)
    (hpos : ∀ op ∈ ops, 0 < opThickness op) (ht0 : 0 < t0) :
    ((applyOps (setMeshSize (setCylinder initBuilder r) m)
        (ops ++ [AddOp.unnamed t0 s0])).layer_names.length <
      (applyOps (setMeshSize (setCylinder initBuilder r) m)
        (ops ++ [AddOp.unnamed t0 s0])).layers.length) ∧
    builderBuild (applyOps (setMeshSize (setCylinder initBuilder r) m)
        (ops ++ [AddOp.unnamed t0 s0])) =
      Except.ok (some ⟨false, none, some (mismatchMsg
        (applyOps (setMeshSize (setCylinder initBuilder r) m)
          (ops ++ [AddOp.unnamed t0 s0])).layer_names.length "layer names"
        (applyOps (setMeshSize (setCylinder initBuilder r) m)
          (ops ++ [AddOp.unnamed t0 s0])).layers.length "layers")⟩) := by
  have hbase : setMeshSize (setCylinder initBuilder r) m
      = ⟨some r, some m, [], [], []⟩ := rfl
  have hsplit : applyOps (setMeshSize (setCylinder initBuilder r) m)
      (ops ++ [AddOp.unnamed t0 s0])
      = applyOp (applyOps (setMeshSize (setCylinder initBuilder r) m) ops)
          (AddOp.unnamed t0 s0) := by
    unfold applyOps
    rw [List.foldl_append]
    rfl
  have hlt : (applyOps (setMeshSize (setCylinder initBuilder r) m)
      (ops ++ [AddOp.unnamed t0 s0])).layer_names.length <
      (applyOps (setMeshSize (setCylinder initBuilder r) m)
        (ops ++ [AddOp.unnamed t0 s0])).layers.length := by
    rw [hsplit]
    rw [show (applyOp (applyOps (setMeshSize (setCylinder initBuilder r) m) ops)
        (AddOp.unnamed t0 s0)).layer_names =
      (applyOps (setMeshSize (setCylinder initBuilder r) m) ops).layer_names
      from rfl]
    rw [applyOp_layers]
    have hle := applyOps_names_le (setMeshSize (setCylinder initBuilder r) m) ops
      (by rw [hbase]; simp)
    simp only [List.length_append, List.length_cons, List.length_nil]
    omega
  refine ⟨hlt, ?_⟩
  have hrad : (applyOps (setMeshSize (setCylinder initBuilder r) m)
      (ops ++ [AddOp.unnamed t0 s0])).radius = some r := by
    rw [applyOps_radius, hbase]
  have hmlv : (applyOps (setMeshSize (setCylinder initBuilder r) m)
      (ops ++ [AddOp.unnamed t0 s0])).ml = some m := by
    rw [applyOps_ml, hbase]
  have hlay : (applyOps (setMeshSize (setCylinder initBuilder r) m)
      (ops ++ [AddOp.unnamed t0 s0])).layers
      = (ops ++ [AddOp.unnamed t0 s0]).map opThickness := by
    rw [applyOps_layers, hbase]
    rfl
  have hthick : ∀ t ∈ (applyOps (setMeshSize (setCylinder initBuilder r) m)
      (ops ++ [AddOp.unnamed t0 s0])).layers, 0 < t := by
    rw [hlay]
    intro t ht
    rcases List.mem_map.mp ht with ⟨op, hop, rfl⟩
    rcases List.mem_append.mp hop with h1 | h2
    · exact hpos op h1
    · rw [List.mem_singleton.mp h2]
      exact ht0
  have hsubs : (applyOps (setMeshSize (setCylinder initBuilder r) m)
      (ops ++ [AddOp.unnamed t0 s0])).subdivisions.length =
      (applyOps (setMeshSize (setCylinder initBuilder r) m)
        (ops ++ [AddOp.unnamed t0 s0])).layers.length := by
    rw [applyOps_subs_length, hlay, hbase]
    simp
  have hany : anyNames (applyOps (setMeshSize (setCylinder initBuilder r) m)
      (ops ++ [AddOp.unnamed t0 s0])).layer_names = true := by
    apply applyOps_anyNames
    rcases hnamed with ⟨n, t, k, hmem⟩
    exact Or.inr ⟨n, t, k, by simp [hmem]⟩
  have hne : (applyOps (setMeshSize (setCylinder initBuilder r) m)
      (ops ++ [AddOp.unnamed t0 s0])).layers ≠ [] := by
    rw [hlay]
    simp
  unfold builderBuild
  rw [if_neg (by rw [hrad]; simp), if_neg (by rw [hmlv]; simp),
    if_neg (by simpa using hne), if_pos hany]
  rw [show (applyOps (setMeshSize (setCylinder initBuilder r) m)
      (ops ++ [AddOp.unnamed t0 s0])).ml.getD 0 = m by rw [hmlv]; rfl]
  rw [show (applyOps (setMeshSize (setCylinder initBuilder r) m)
      (ops ++ [AddOp.unnamed t0 s0])).radius.getD 0 = r by rw [hrad]; rfl]
  rw [createMeshValidated_of_error
    (validateCreate_names_mismatch hm hr hthick hsubs (Nat.ne_of_lt hlt))]

/-- Witness for C9's amended theorem: one named layer then one unnamed
layer. -/
theorem claim9_witness :
    ((applyOps (setMeshSize (setCylinder initBuilder 1) 1)
        ([AddOp.named "A" 2 1] ++ [AddOp.unnamed 1 1])).layer_names.length <
      (applyOps (setMeshSize (setCylinder initBuilder 1) 1)
        ([AddOp.named "A" 2 1] ++ [AddOp.unnamed 1 1])).layers.length) ∧
    builderBuild (applyOps (setMeshSize (setCylinder initBuilder 1) 1)
        ([AddOp.named "A" 2 1] ++ [AddOp.unnamed 1 1])) =
      Except.ok (some ⟨false, none, some (mismatchMsg
        (applyOps (setMeshSize (setCylinder initBuilder 1) 1)
          ([AddOp.named "A" 2 1] ++ [AddOp.unnamed 1 1])).layer_names.length
        "layer names"
        (applyOps (setMeshSize (setCylinder initBuilder 1) 1)
          ([AddOp.named "A" 2 1] ++ [AddOp.unnamed 1 1])).layers.length
        "layers")⟩) :=
  claim9_names_shorter 1 1 1 1 [AddOp.named "A" 2 1] (by norm_num) (by norm_num)
    ⟨"A", 2, 1, by simp⟩ (by decide) (by norm_num)

theorem volumeGroups_solid (s : LayerStack) :
    volumeGroups (solidDirectives s) = [] := by
  unfold volumeGroups solidDirectives
  rw [List.filterMap_map]
  rw [List.filterMap_eq_nil]
  intro p _
  rfl

theorem volumeGroups_surface (s : LayerStack) :
    volumeGroups (surfaceDirectives s) = [] := by
  unfold volumeGroups surfaceDirectives
  rw [List.filterMap_append, List.filterMap_map]
  rw [show List.filterMap (fun d => match d with
      | Directive.physVolume t n => some (t, n)
      | _ => none)
      [Directive.physSurface 1 "Bottom", Directive.physSurface 2 "Top",
        Directive.physSurface 3 "Lateral"] = [] from rfl]
  rw [List.nil_append]
  exact List.filterMap_eq_nil.mpr (fun a _ => rfl)

theorem volumeGroups_volumes (s : LayerStack) :
    volumeGroups (volumeDirectives s) =
      s.layersSeq.enum.map
        (fun p => (p.1 + 1, p.2.name.getD (defaultLayerName p.1))) := by
  unfold volumeGroups volumeDirectives
  rw [List.filterMap_map]
  rw [show ((fun d => match d with
      | Directive.physVolume t n => some (t, n)
      | _ => none) ∘
      (fun p : Nat × SpecLayer =>
        Directive.physVolume (p.1 + 1) (p.2.name.getD (defaultLayerName p.1))))
    = fun p : Nat × SpecLayer =>
        some (p.1 + 1, p.2.name.getD (defaultLayerName p.1)) from rfl]
  exact List.filterMap_eq_map _ ▸ rfl

theorem volumeGroups_scriptOf (s : LayerStack) :
    volumeGroups (scriptOf s) =
      s.layersSeq.enum.map
        (fun p => (p.1 + 1, p.2.name.getD (defaultLayerName p.1))) := by
  unfold scriptOf volumeGroups
  rw [List.filterMap_append, List.filterMap_append]
  have h1 := volumeGroups_solid s
  have h2 := volumeGroups_surface s
  have h3 := volumeGroups_volumes s
  unfold volumeGroups at h1 h2 h3
  rw [h1, h2, h3]
  simp

theorem enumFrom_fst_ge {α : Type} :
    ∀ (l : List α) (n : Nat) (q : Nat × α), q ∈ List.enumFrom n l → n ≤ q.1 := by
  intro l
  induction l with
  | nil => intro n q hq; exact absurd hq (by simp)
  | cons a t ih =>
    intro n q hq
    rcases List.mem_cons.mp hq with rfl | hq2
    · exact le_rfl
    · exact Nat.le_of_succ_le (ih (n + 1) q hq2)

theorem enumFrom_fst_lt {α : Type} :
    ∀ (l : List α) (n : Nat),
      (List.enumFrom n l).Pairwise (fun p q => p.1 < q.1) := by
  intro l
  induction l with
  | nil => intro n; simp
  | cons a t ih =>
    intro n
    rw [show List.enumFrom n (a :: t) = (n, a) :: List.enumFrom (n + 1) t from rfl]
    rw [List.pairwise_cons]
    exact ⟨fun q hq => Nat.lt_of_succ_le (enumFrom_fst_ge t (n + 1) q hq), ih (n + 1)⟩

/-- C2 (modelled from the spec, the geometry module being absent from the
snapshot): for a valid stack with N layers, `build` emits exactly N volume
physical groups, tagged `1..N` strictly increasing in layer order, named by
the provided layer name or the default `"Layer_<i+1>"`. -/
theorem claim2_volume_groups (s : LayerStack) (h : validStack s) :
    buildScript s = some (scriptOf s) ∧
    volumeGroups (scriptOf s)
        = s.layersSeq.enum.map
            (fun p => (p.1 + 1, p.2.name.getD (defaultLayerName p.1))) ∧
    (volumeGroups (scriptOf s)).length = s.layersSeq.length ∧
    (volumeGroups (scriptOf s)).map Prod.fst
        = (List.range s.layersSeq.length).map (· + 1) ∧
    List.Pairwise (fun a b => a.1 < b.1) (volumeGroups (scriptOf s)) := by
  refine ⟨?_, volumeGroups_scriptOf s, ?_, ?_, ?_⟩
  · unfold buildScript
    rw [if_pos h]
    rfl
  · rw [volumeGroups_scriptOf s]
    simp [List.enum_length]
  · rw [volumeGroups_scriptOf s, List.map_map, ← List.enum_map_fst s.layersSeq,
      List.map_map]
    rfl
  · rw [volumeGroups_scriptOf s, List.pairwise_map]
    have := enumFrom_fst_lt s.layersSeq 0
    rw [show List.enumFrom 0 s.layersSeq = s.layersSeq.enum from rfl] at this
    exact this.imp (fun hlt => Nat.add_lt_add_right hlt 1)

/-- Witness for C2 at the spec's three-layer named scenario stack. -/
theorem claim2_witness :
    buildScript demoStack = some (scriptOf demoStack) ∧
    volumeGroups (scriptOf demoStack)
        = demoStack.layersSeq.enum.map
            (fun p => (p.1 + 1, p.2.name.getD (defaultLayerName p.1))) ∧
    (volumeGroups (scriptOf demoStack)).length = demoStack.layersSeq.length ∧
    (volumeGroups (scriptOf demoStack)).map Prod.fst
        = (List.range demoStack.layersSeq.length).map (· + 1) ∧
    List.Pairwise (fun a b => a.1 < b.1) (volumeGroups (scriptOf demoStack)) :=
  claim2_volume_groups demoStack (by decide)

/-- C3 (modelled from the spec, the geometry module being absent from the
snapshot): `build` is deterministic and its repeated invocation is
idempotent — equal stacks give equal scripts; purity is intrinsic to the
functional embedding. -/
theorem claim3_deterministic :
    (∀ s t : LayerStack, s = t → buildScript s = buildScript t) ∧
    (∀ s : LayerStack, buildScript s = buildScript s) :=
  ⟨fun _ _ h => by rw [h], fun _ => rfl⟩

/-- Witness for C3 at the scenario stack. -/
theorem claim3_witness : buildScript demoStack = buildScript demoStack :=
  claim3_deterministic.1 demoStack demoStack rfl

/-- C1: on an artifact whose second `PhysicalNames` record has a non-numeric
dimension field, the parser absorbs the exception but returns the partially
populated statistics (the first record's entry is kept) instead of the
all-default statistics its own comment promises. -/
theorem claim1_partial_stats_on_failure :
    extractMeshStatistics c1input = ⟨[((['A'] : Chars), ⟨3, 1⟩)], 0, 0⟩ ∧
    physRaised c1input = true ∧
    extractMeshStatistics c1input ≠ ⟨[], 0, 0⟩ := by
  decide

/-- C5 counterexample: the `Elements` section is present with parseable 4th
field `7`, yet `num_elements` is 0 because the `Nodes` stage raised
first. -/
theorem claim5_counterexample :
    (extractMeshStatistics c5cexInput).num_elements = 0 ∧
    searchLine elemsMarker c5cexInput = some (("4 5 6 7").toList) ∧
    headerCount (("4 5 6 7").toList) = (some 7, false) := by
  decide

/-- Witness for C5's amended theorem at concrete artifacts. -/
theorem claim5_witness :
    ((extractMeshStatistics (c5content [] ('1' :: ((" 2 3 9").toList))
        (("x\n").toList) ('4' :: ((" 5 6 7").toList)) [])).num_vertices
      = (headerCount ('1' :: ((" 2 3 9").toList))).1.getD 0) ∧
    (extractMeshStatistics (("no nodes here").toList)).num_vertices = 0 :=
  ⟨(claim5_header_fields.1 [] (("x\n").toList) [] ((" 2 3 9").toList)
      ((" 5 6 7").toList) '1' '4' (by decide) (by decide) (by decide) (by decide)
      (by decide) (by decide) (by decide) (by decide)).1,
    claim5_header_fields.2 (("no nodes here").toList) (by decide)⟩

/-- C8 counterexample: a `Nodes` header whose 4th field is `-5` yields a
negative vertex count. -/
theorem claim8_counterexample :
    (extractMeshStatistics c8cexInput).num_vertices = -5 ∧
    (extractMeshStatistics c8cexInput).num_vertices < 0 := by
  decide

/-- Witness for C8's amended theorem at a concrete artifact. -/
theorem claim8_witness :
    0 ≤ (extractMeshStatistics (("$Nodes\n1 2 3 42\n\n").toList)).num_vertices ∧
    0 ≤ (extractMeshStatistics (("$Nodes\n1 2 3 42\n\n").toList)).num_elements :=
  claim8_counts_nonneg (("$Nodes\n1 2 3 42\n\n").toList) (by decide)

/-- Witness for C4 at the spec's example section, including the expected
concrete mapping. -/
theorem claim4_witness :
    ((extractMeshStatistics (c4content [] ['2']
        [⟨['2'], ['1'], ("Surf1").toList⟩, ⟨['3'], ['2'], ("Vol1").toList⟩]
        (("\n").toList))).physical_groups
      = ([⟨['2'], ['1'], ("Surf1").toList⟩,
          ⟨['3'], ['2'], ("Vol1").toList⟩].take (digitsToNat ['2'])).map entryOf) ∧
    physRaised (c4content [] ['2']
        [⟨['2'], ['1'], ("Surf1").toList⟩, ⟨['3'], ['2'], ("Vol1").toList⟩]
        (("\n").toList)) = false ∧
    (extractMeshStatistics (c4content [] ['2']
        [⟨['2'], ['1'], ("Surf1").toList⟩, ⟨['3'], ['2'], ("Vol1").toList⟩]
        (("\n").toList))).physical_groups
      = [((("Surf1").toList), ⟨2, 1⟩), ((("Vol1").toList), ⟨3, 2⟩)] := by
  have h := claim4_physicalNames_records [] ['2'] (("\n").toList)
    [⟨['2'], ['1'], ("Surf1").toList⟩, ⟨['3'], ['2'], ("Vol1").toList⟩]
    (by decide) (by decide) (by decide) (by decide)
  exact ⟨h.1, h.2, by decide⟩

/-- Witness for C10 at the record `3 1 "My Layer"`: the entry is keyed by
`My`. -/
theorem claim10_witness :
    (extractMeshStatistics (c10content (("3").toList) (("1").toList)
        (("My").toList) (("Layer").toList) (("\n").toList))).physical_groups
        = [((("My").toList),
            ⟨(digitsToNat (("3").toList) : Int), (digitsToNat (("1").toList) : Int)⟩)]
      ∧ physRaised (c10content (("3").toList) (("1").toList) (("My").toList)
          (("Layer").toList) (("\n").toList)) = false :=
  claim10_name_truncated (("3").toList) (("1").toList) (("My").toList)
    (("Layer").toList) (("\n").toList) (by decide) (by decide) (by decide)
    (by decide)
